import Mathlib

/-!
# Verification of the IFF reader (`src/reader.py`)

A shallow embedding of the IFF (railway interchange format) reader.  Python
source constructs are modelled as follows:

* exceptions: functions return `Except PyErr _`; each Python exception kind
  used by the reader has a `PyErr` constructor;
* the line source (`self._file`) together with the pushback list
  (`self.pushed_back`) form a `Cursor`; `self._file.__next__()` takes the
  head of `Cursor.file` and raises `StopIteration` when it is empty;
* Python `dict`s built by `parse_row` are association lists
  (`Rec := List (String × Val)`): `parse_row` inserts keys in the pattern's
  group order, which is the iteration order of the Python dict, and any two
  dicts the program ever compares are built with the same key order, so
  structural equality of the association lists coincides with Python's
  order-insensitive dict equality;
* `datetime.date` values are their proleptic-Gregorian ordinal (an `Int`,
  as produced by `date.toordinal`); `date + timedelta(1)` is `(· + 1)`;
* `datetime.timedelta(hours=h, minutes=m)` values are total minutes;
* regular expressions are an explicit syntax tree `RE`; `reMatch` is a
  backtracking matcher returning the named captures of the leftmost
  (PCRE-priority) match of `re.match` (anchored at the start, a proper
  prefix may match);
* loops that consume input are recursive functions (terminating because
  each round consumes a source line); the timetable route loop can actually
  run forever, so it takes explicit fuel and `PyErr.fuelOut` marks that no
  execution with that much fuel terminates.
-/

/-- Python exception kinds raised (or caught) by `reader.py`. -/
inductive PyErr where
  | stopIteration   -- `StopIteration`
  | rowType         -- `IFFReaderRowTypeException`
  | valueError      -- `ValueError` (bad `int()` / `date()` / unknown type tag)
  | indexError      -- `IndexError` (`line[0]` on an empty string)
  | unboundLocal    -- `UnboundLocalError` (reading a never-assigned local)
  | fuelOut         -- sentinel: the modelled loop exceeded the given fuel
  deriving DecidableEq, Repr

/-- A Python value stored in a record produced by the reader:
strings, ints, dates (as Gregorian ordinals), timedeltas (as minutes),
lists, and nested record dicts. -/
inductive Val where
  | vs (s : String)                     -- str
  | vi (n : Int)                        -- int
  | vd (ordinal : Int)                  -- datetime.date, as its ordinal
  | vt (minutes : Int)                  -- datetime.timedelta, as minutes
  | vlist (l : List Val)                -- list
  | vrec (r : List (String × Val))      -- dict (a parsed record)
  deriving Repr

/-- A parsed record: a Python dict as an association list in key-insertion
order. -/
abbrev Rec := List (String × Val)

/-- Dict lookup (`d[k]`, as an `Option`). -/
def getK (r : Rec) (k : String) : Option Val :=
  match r with
  | [] => none
  | (k', v) :: rest => if k' = k then some v else getK rest k

/-- Dict update `d[k] = v`: replaces the value in place when the key exists
(keeping its position, as Python does) and appends the key otherwise. -/
def setK (r : Rec) (k : String) (v : Val) : Rec :=
  match r with
  | [] => [(k, v)]
  | (k', v') :: rest => if k' = k then (k', v) :: rest else (k', v') :: setK rest k v

mutual

/-- Python `==` on modelled values (structural; see the header note on why
this coincides with dict equality for every comparison the reader makes). -/
def valBEq : Val → Val → Bool
  | .vs a, .vs b => a == b
  | .vi a, .vi b => a == b
  | .vd a, .vd b => a == b
  | .vt a, .vt b => a == b
  | .vlist a, .vlist b => listValBEq a b
  | .vrec a, .vrec b => recBEq a b
  | _, _ => false

/-- Python `==` on lists of values. -/
def listValBEq : List Val → List Val → Bool
  | [], [] => true
  | a :: as, b :: bs => valBEq a b && listValBEq as bs
  | _, _ => false

/-- Python `==` on record dicts (same key order for all compared records). -/
def recBEq : List (String × Val) → List (String × Val) → Bool
  | [], [] => true
  | (k, v) :: as, (l, w) :: bs => k == l && valBEq v w && recBEq as bs
  | _, _ => false

end

/-- `d[fld].append(v)` for a field that was initialised with an empty list
(every append in `reader.py` targets a field set to `[]` beforehand). -/
def appendToField (r : Rec) (fld : String) (v : Val) : Rec :=
  setK r fld (match getK r fld with
    | some (.vlist l) => .vlist (l ++ [v])
    | _ => .vlist [v])

/-- The numeric value of a decimal digit character, `none` otherwise. -/
def digitVal (c : Char) : Option Nat :=
  if 48 ≤ c.toNat ∧ c.toNat ≤ 57 then some (c.toNat - 48) else none

/-- Left fold of decimal digits; `none` as soon as a non-digit appears. -/
def digitsToNat : List Char → Nat → Option Nat
  | [], acc => some acc
  | c :: rest, acc =>
    match digitVal c with
    | some d => digitsToNat rest (acc * 10 + d)
    | none => none

/-- Python `int(s)` for the (already stripped) strings the reader feeds it:
an optional sign followed by at least one decimal digit; anything else
raises `ValueError`. -/
def pyInt (s : String) : Except PyErr Int :=
  match s.data with
  | [] => .error .valueError
  | '-' :: rest =>
    match rest, digitsToNat rest 0 with
    | _ :: _, some n => .ok (-(n : Int))
    | _, _ => .error .valueError
  | '+' :: rest =>
    match rest, digitsToNat rest 0 with
    | _ :: _, some n => .ok (n : Int)
    | _, _ => .error .valueError
  | l =>
    match digitsToNat l 0 with
    | some n => .ok (n : Int)
    | none => .error .valueError

/-- Python slice `s[a:b]` (with clamping at the string's end). -/
def strSlice (s : String) (a b : Nat) : String :=
  ⟨(s.data.drop a).take (b - a)⟩

/-- Gregorian leap-year test (as used by `datetime.date`). -/
def isLeap (y : Nat) : Bool :=
  y % 4 = 0 && (y % 100 ≠ 0 || y % 400 = 0)

/-- Days in a month of a given year (`datetime.date` bounds). -/
def daysInMonth (y m : Nat) : Nat :=
  if m = 2 then (if isLeap y then 29 else 28)
  else if m = 4 ∨ m = 6 ∨ m = 9 ∨ m = 11 then 30
  else 31

/-- Days before the first of month `m` in year `y`. -/
def daysBeforeMonth (y m : Nat) : Nat :=
  (List.range (m - 1)).foldl (fun acc i => acc + daysInMonth y (i + 1)) 0

/-- `datetime.date(y, m, d).toordinal()`: the proleptic-Gregorian ordinal
(1 = 1 January of year 1).  Out-of-range components raise `ValueError`,
exactly as the `datetime.date` constructor does. -/
def mkDate (y m d : Int) : Except PyErr Int :=
  if 1 ≤ y ∧ y ≤ 9999 ∧ 1 ≤ m ∧ m ≤ 12 ∧ 1 ≤ d then
    let yn := y.toNat; let mn := m.toNat; let dn := d.toNat
    if dn ≤ daysInMonth yn mn then
      .ok (365 * ((yn : Int) - 1) + ((yn - 1) / 4 : Nat) - ((yn - 1) / 100 : Nat)
           + ((yn - 1) / 400 : Nat) + daysBeforeMonth yn mn + dn)
    else .error .valueError
  else .error .valueError

/-- `IFFReader.date`: an 8-character `ddmmyyyy` token to a calendar date
(`date(int(value[4:8]), int(value[2:4]), int(value[:2]))`). -/
def IFFdate (value : String) : Except PyErr Int := do
  let y ← pyInt (strSlice value 4 8)
  let m ← pyInt (strSlice value 2 4)
  let d ← pyInt (strSlice value 0 2)
  mkDate y m d

/-- `IFFReader.time`: a 4-character `hhmm` token to
`timedelta(hours=int(value[:2]), minutes=int(value[2:4]))`, in minutes.
There is deliberately no modulo-24 reduction. -/
def IFFtime (value : String) : Except PyErr Int := do
  let h ← pyInt (strSlice value 0 2)
  let m ← pyInt (strSlice value 2 4)
  .ok (h * 60 + m)

/-! ## Regular-expression engine

The reader's patterns only use: literal characters, escaped literals,
`.` (any character but a newline), `\d`, `\s`, small character classes,
counted repetition `{n}` / `{lo,hi}` (greedy), one alternation, and
non-nested named groups.  `RE` is the corresponding syntax tree; counted
repetition is expanded at pattern-construction time (`rrep`), so the
matcher is structurally recursive.  `mAll` enumerates, in PCRE backtracking
priority order, every way a prefix of the input can match, together with
the named captures; `reMatch` takes the first (= the match `re.match`
finds). -/

inductive RE where
  | eps
  | lit (c : Char)
  | anyc                               -- `.`  (anything except a newline)
  | digit                              -- `\d`
  | space                              -- `\s`
  | cls (cs : List Char) (withDigits : Bool)   -- `[...]`, e.g. `[-\d]`
  | seq (a b : RE)
  | alt (a b : RE)                     -- `a|b`, `a` preferred
  | grp (name : String) (r : RE)       -- `(?P<name>...)`
  deriving Repr

/-- Is `c` matched by `\s`? -/
def isPySpace (c : Char) : Bool :=
  c = ' ' || c = '\t' || c = '\n' || c = '\x0d' || c = '\x0b' || c = '\x0c'

/-- All prefix matches of `r` against `s`, in backtracking priority order:
each entry is the rest of the input plus the named captures made. -/
def mAll : RE → List Char → List (List Char × List (String × String))
  | .eps, s => [(s, [])]
  | .lit c, s =>
    match s with
    | [] => []
    | a :: rest => if a = c then [(rest, [])] else []
  | .anyc, s =>
    match s with
    | [] => []
    | a :: rest => if a = '\n' then [] else [(rest, [])]
  | .digit, s =>
    match s with
    | [] => []
    | a :: rest => if 48 ≤ a.toNat ∧ a.toNat ≤ 57 then [(rest, [])] else []
  | .space, s =>
    match s with
    | [] => []
    | a :: rest => if isPySpace a then [(rest, [])] else []
  | .cls cs d, s =>
    match s with
    | [] => []
    | a :: rest =>
      if cs.contains a || (d && 48 ≤ a.toNat && a.toNat ≤ 57) then [(rest, [])] else []
  | .seq a b, s =>
    (mAll a s).flatMap (fun p =>
      (mAll b p.1).map (fun q => (q.1, p.2 ++ q.2)))
  | .alt a b, s => mAll a s ++ mAll b s
  | .grp n r, s =>
    (mAll r s).map (fun p => (p.1, p.2 ++ [(n, ⟨s.take (s.length - p.1.length)⟩)]))

/-- `re.match(r, s)`: the leftmost-priority anchored match; on success the
dict of named captures (`match.groupdict()`), in group order. -/
def reMatch (r : RE) (s : String) : Option (List (String × String)) :=
  (mAll r s.data).head?.map (·.2)

/-- Concatenation of a list of pattern pieces. -/
def rseq (l : List RE) : RE := l.foldr .seq .eps

/-- A run of literal characters. -/
def rstr (s : String) : RE := rseq (s.data.map .lit)

/-- `r{lo,hi}` (greedy), expanded: `lo` mandatory copies followed by
`hi - lo` nested optional copies, each preferring to match. -/
def rrep (lo hi : Nat) (r : RE) : RE :=
  let opts := Nat.rec RE.eps (fun _ acc => RE.alt (RE.seq r acc) RE.eps) (hi - lo)
  rseq (List.replicate lo r ++ [opts])

/-- `.{n}` -/
def rany (n : Nat) : RE := rrep n n .anyc

/-- `\d{n}` -/
def rdigits (n : Nat) : RE := rrep n n .digit

/-! ## Field extraction (`IFFReader.parse_row`) -/

/-- Python `str.strip()`: drop leading and trailing whitespace. -/
def pyStrip (s : String) : String :=
  ⟨((s.data.dropWhile isPySpace).reverse.dropWhile isPySpace).reverse⟩

/-- The split of a group name done by
`name_parts = group_name.split("_"); data_type = name_parts[-1];
parameter_name = "_".join(name_parts[:-1])`: the suffix after the *last*
underscore is the type tag and everything before it (underscores intact) is
the parameter name; with no underscore at all the whole name is the tag and
the parameter name is empty. -/
def splitTypeTag (name : String) : String × String :=
  let rev := name.data.reverse
  let tagRev := rev.takeWhile (· ≠ '_')
  match rev.dropWhile (· ≠ '_') with
  | '_' :: preRev => (⟨preRev.reverse⟩, ⟨tagRev.reverse⟩)
  | _ => ("", ⟨tagRev.reverse⟩)

/-- One field conversion of `parse_row`: the type tag is the part of the
group name after the last underscore; the value is stripped and converted
(`str`/`strw` kept, `int`/`intw` parsed with empty → `0` and a literal `*`
kept verbatim for `intw`, `date` and `time` via the readers above); an
unknown tag raises `ValueError`. -/
def convertField (groupName rawValue : String) : Except PyErr (String × Val) :=
  let split := splitTypeTag groupName
  let paramName := split.1
  let dataType := split.2
  let sv := pyStrip rawValue
  if dataType = "str" ∨ dataType = "strw" then .ok (paramName, .vs sv)
  else if dataType = "int" ∨ dataType = "intw" then
    if sv = "" then .ok (paramName, .vi 0)
    else if dataType = "intw" ∧ sv = "*" then .ok (paramName, .vs "*")
    else (pyInt sv).map (fun n => (paramName, .vi n))
  else if dataType = "date" then (IFFdate sv).map (fun d => (paramName, .vd d))
  else if dataType = "time" then (IFFtime sv).map (fun t => (paramName, .vt t))
  else .error .valueError

/-- `IFFReader.parse_row`: match the row against the pattern (failure is
`IFFReaderRowTypeException`) and convert each named capture in group
order into the result dict. -/
def parse_row (pattern : RE) (row : String) : Except PyErr Rec :=
  match reMatch pattern row with
  | none => .error .rowType
  | some caps =>
    caps.foldlM (fun acc p => do
      let (k, v) ← convertField p.1 p.2
      pure (setK acc k v)) ([] : Rec)

/-! ## The line cursor (`self._file` plus `self.pushed_back`) -/

/-- The reader's view of its line source: the pushback list (a Python list
appended to by `peek` and popped from the end by `next_line`) and the
not-yet-read lines of the underlying file iterator. -/
structure Cursor where
  pushed_back : List String
  file : List String
  deriving DecidableEq, Repr

/-- `IFFReader.peek`: read the next line from the file iterator (raising
`StopIteration` when it is exhausted), append it to `pushed_back`, and
return it. -/
def peek (c : Cursor) : Except PyErr (String × Cursor) :=
  match c.file with
  | [] => .error .stopIteration
  | l :: rest => .ok (l, ⟨c.pushed_back ++ [l], rest⟩)

/-- `IFFReader.next_line`: pop the most recently pushed-back line if there
is one, else read from the file iterator. -/
def next_line (c : Cursor) : Except PyErr (String × Cursor) :=
  match c.pushed_back.getLast? with
  | some l => .ok (l, ⟨c.pushed_back.dropLast, c.file⟩)
  | none =>
    match c.file with
    | [] => .error .stopIteration
    | l :: rest => .ok (l, ⟨c.pushed_back, rest⟩)

/-- `line[0]`: the first character of a line; `IndexError` on an empty
line. -/
def charAt (s : String) : Except PyErr Char :=
  match s.data with
  | [] => .error .indexError
  | ch :: _ => .ok ch

/-! ## The record patterns (the `REGEXP` class constants), transcribed -/

/-- `IFFChangesReader.REGEXP` -/
def IFFChangesReader_REGEXP : RE :=
  rseq [.lit '#', .grp "station_short_name_str" (rany 7)]

/-- `IFFChangesReader.CHANGE_REGEXP` -/
def IFFChangesReader_CHANGE_REGEXP : RE :=
  rseq [.lit '-', .grp "from_service_identification_int" (rdigits 8), .lit ',',
        .grp "to_service_identification_int" (rdigits 8), .lit ',',
        .grp "possibility_to_change_trains_int" (rrep 1 2 .digit)]

/-- `IFFStationConnectionReader.REGEXP` -/
def IFFStationConnectionReader_REGEXP : RE :=
  rseq [.lit '>', .grp "from_station_short_name_str" (rrep 1 7 .anyc), .lit ',',
        .grp "to_station_short_name_str" (rrep 1 7 .anyc)]

/-- `IFFStationConnectionReader.INFLECT_REGEXP` -/
def IFFStationConnectionReader_INFLECT_REGEXP : RE :=
  rseq [.lit '&', .grp "x_int" (rseq [.cls ['-'] true, rdigits 5]), .lit ',',
        .grp "y_int" (rseq [.cls ['-'] true, rdigits 5])]

/-- `IFFTimeZoneReader.REGEXP` -/
def IFFTimeZoneReader_REGEXP : RE :=
  rseq [.lit '#', .grp "time_zone_number_int" (rdigits 4)]

/-- `IFFTimeZoneReader.PERIOD_REGEXP` -/
def IFFTimeZoneReader_PERIOD_REGEXP : RE :=
  rseq [.grp "time_difference_int" (rseq [.cls ['-', '+'] false, rdigits 2]), .lit ',',
        .grp "first_day_date" (rdigits 8), .lit ',',
        .grp "last_day_date" (rdigits 8)]

/-- `IFFTransportModeQuestionReader.REGEXP` -/
def IFFTransportModeQuestionReader_REGEXP : RE :=
  rseq [.lit '#', .grp "question_code_str" (rany 4), .lit ',',
        .grp "question_str" (rany 30)]

/-- `IFFTransportModeQuestionReader.TRANSPORT_MODE_REGEXP` -/
def IFFTransportModeQuestionReader_TRANSPORT_MODE_REGEXP : RE :=
  rseq [.lit '-', .grp "transport_mode_code_str" (rany 4)]

/-- `IFFTransportAttributeQuestionReader.REGEXP` -/
def IFFTransportAttributeQuestionReader_REGEXP : RE :=
  rseq [.lit '#', .grp "question_code_str" (rany 4), .lit ',',
        .grp "question_type_int" (.cls ['0', '1'] false), .lit ',',
        .grp "question_str" (rany 30)]

/-- `IFFTransportAttributeQuestionReader.TRANSPORT_ATTRIBUTE_REGEXP` -/
def IFFTransportAttributeQuestionReader_TRANSPORT_ATTRIBUTE_REGEXP : RE :=
  rseq [.lit '-', .grp "transport_attr_code_str" (rany 4)]

/-- `IFFXChangesReader.REGEXP` -/
def IFFXChangesReader_REGEXP : RE :=
  rseq [.lit '#', .grp "station_short_name_str" (rany 7)]

/-- `IFFXChangesReader.XCHANGE_REGEXP` -/
def IFFXChangesReader_XCHANGE_REGEXP : RE :=
  rseq [.lit '-',
        .grp "from_company_number_intw" (.alt (rseq [.lit '*', .space, .space]) (rdigits 3)),
        .lit ',', .grp "from_transport_mode_strw" (rany 4), .lit ',',
        .grp "to_company_number_intw" (.alt (rseq [.lit '*', .space, .space]) (rdigits 3)),
        .lit ',', .grp "to_transport_mode_strw" (rany 4), .lit ',',
        .grp "time_to_change_transport_int" (rdigits 3), .lit ',',
        .grp "footnote_number_int" (rdigits 5)]

/-- `IFFFootnoteReader.REGEXP` -/
def IFFFootnoteReader_REGEXP : RE :=
  rseq [.lit '#', .grp "footnote_number_int" (rdigits 5)]

/-- `IFFSynonymReader.TRANSPORT_ATTRIBUTE_REGEXP` -/
def IFFSynonymReader_TRANSPORT_ATTRIBUTE_REGEXP : RE :=
  rseq [.lit '*', .grp "transport_attribute_code_str" (rany 4), .lit ',',
        .grp "language_code_str" (rany 4), .lit ',', .grp "description_str" (rany 30)]

/-- `IFFSynonymReader.TRANSPORT_MODE_REGEXP` -/
def IFFSynonymReader_TRANSPORT_MODE_REGEXP : RE :=
  rseq [.lit '&', .grp "transport_mode_code_str" (rany 4), .lit ',',
        .grp "language_code_str" (rany 4), .lit ',', .grp "description_str" (rany 30)]

/-- `IFFSynonymReader.TRANSPORT_ATTRIBUTE_QUESTION_REGEXP` -/
def IFFSynonymReader_TRANSPORT_ATTRIBUTE_QUESTION_REGEXP : RE :=
  rseq [.lit '$', .grp "transport_attribute_q_code_str" (rany 4), .lit ',',
        .grp "language_code_str" (rany 4), .lit ',', .grp "description_str" (rany 30)]

/-- `IFFSynonymReader.TRANSPORT_MODE_QUESTION_REGEXP` -/
def IFFSynonymReader_TRANSPORT_MODE_QUESTION_REGEXP : RE :=
  rseq [.lit '#', .grp "transport_mode_question_code_str" (rany 4), .lit ',',
        .grp "language_code_str" (rany 4), .lit ',', .grp "description_str" (rany 30)]

/-- `IFFSynonymReader.CONNECTION_MODE_REGEXP` -/
def IFFSynonymReader_CONNECTION_MODE_REGEXP : RE :=
  rseq [.lit '%', .grp "connection_mode_code_str" (rany 4), .lit ',',
        .grp "language_code_str" (rany 4), .lit ',', .grp "description_str" (rany 30)]

/-- `IFFSynonymReader.COUNTRY_REGEXP` (the `counttry` typo is the source's) -/
def IFFSynonymReader_COUNTRY_REGEXP : RE :=
  rseq [.lit '.', .grp "counttry_code_str" (rany 4), .lit ',',
        .grp "language_code_str" (rany 4), .lit ',', .grp "description_str" (rany 30)]

/-- `IFFSynonymReader.STATION_REGEXP` -/
def IFFSynonymReader_STATION_REGEXP : RE :=
  rseq [.lit '+', .grp "station_short_name_str" (rany 7), .lit ',',
        .grp "language_code_str" (rany 4), .lit ',', .grp "description_str" (rany 30)]

/-- `IFFSynonymReader.GROUP_REGEXP` -/
def IFFSynonymReader_GROUP_REGEXP : RE :=
  rseq [.lit '-', .grp "group_short_name_str" (rany 7), .lit ',',
        .grp "language_code_str" (rany 4), .lit ',', .grp "description_str" (rany 30)]

/-- `IFFTimeTablesReader.REGEXP` -/
def IFFTimeTablesReader_REGEXP : RE :=
  rseq [.lit '#', .grp "service_identification_int" (rdigits 8)]

/-- `IFFTimeTablesReader.ATTRIBUTE_REGEXP` -/
def IFFTimeTablesReader_ATTRIBUTE_REGEXP : RE :=
  rseq [.lit '*', .grp "attribute_code_str" (rany 4), .lit ',',
        .grp "first_stop_int" (rdigits 3), .lit ',', .grp "last_stop_int" (rdigits 3)]

/-- `IFFTimeTablesReader.NUMBER_REGEXP` -/
def IFFTimeTablesReader_NUMBER_REGEXP : RE :=
  rseq [.lit '%', .grp "company_number_int" (rdigits 3), .lit ',',
        .grp "service_number_int" (rdigits 5), .lit ',',
        .grp "variant_str" (rrep 6 7 .anyc), .lit ',',
        .grp "first_stop_int" (rdigits 3), .lit ',', .grp "last_stop_int" (rdigits 3),
        .lit ',', .grp "service_name_str" (rany 30)]

/-- `IFFTimeTablesReader.TRANSPORT_MODE_REGEXP` -/
def IFFTimeTablesReader_TRANSPORT_MODE_REGEXP : RE :=
  rseq [.lit '&', .grp "transport_mode_code_str" (rany 4), .lit ',',
        .grp "first_stop_int" (rdigits 3), .lit ',', .grp "last_stop_int" (rdigits 3)]

/-- `IFFTimeTablesReader.VALIDITY_REGEXP` -/
def IFFTimeTablesReader_VALIDITY_REGEXP : RE :=
  rseq [.lit '-', .grp "footnote_number_int" (rdigits 5), .lit ',',
        .grp "first_stop_int" (rdigits 3), .lit ',', .grp "last_stop_int" (rdigits 3)]

/-- `IFFTimeTablesReader.START_REGEXP` -/
def IFFTimeTablesReader_START_REGEXP : RE :=
  rseq [.lit '>', .grp "station_short_name_str" (rany 7), .lit ',',
        .grp "departure_time_time" (rdigits 4)]

/-- `IFFTimeTablesReader.FINAL_REGEXP` -/
def IFFTimeTablesReader_FINAL_REGEXP : RE :=
  rseq [.lit '<', .grp "station_short_name_str" (rany 7), .lit ',',
        .grp "arrival_time_time" (rdigits 4)]

/-- `IFFTimeTablesReader.CONTINUATION_REGEXP` -/
def IFFTimeTablesReader_CONTINUATION_REGEXP : RE :=
  rseq [.lit '.', .grp "station_short_name_str" (rany 7), .lit ',',
        .grp "time_time" (rdigits 4)]

/-- `IFFTimeTablesReader.PASSING_REGEXP` -/
def IFFTimeTablesReader_PASSING_REGEXP : RE :=
  rseq [.lit ';', .grp "station_short_name_str" (rany 7)]

/-- `IFFTimeTablesReader.INTERVAL_REGEXP` -/
def IFFTimeTablesReader_INTERVAL_REGEXP : RE :=
  rseq [.lit '+', .grp "station_short_name_str" (rany 7), .lit ',',
        .grp "arrival_time_time" (rdigits 4), .lit ',',
        .grp "departure_time_time" (rdigits 4)]

/-- `IFFTimeTablesReader.PLATFORM_REGEXP` -/
def IFFTimeTablesReader_PLATFORM_REGEXP : RE :=
  rseq [.lit '?', .grp "arr_platform_name_str" (rany 5), .lit ',',
        .grp "dep_platform_name_str" (rany 5), .lit ',',
        .grp "footnote_number_int" (rdigits 5)]

/-! ## Cursor facts used for termination -/

/-- `next_line` never grows the unread file. -/
theorem next_line_file_le {c : Cursor} {l : String} {c' : Cursor}
    (h : next_line c = .ok (l, c')) : c'.file.length ≤ c.file.length := by
  unfold next_line at h
  cases hq : c.pushed_back.getLast? with
  | some x => rw [hq] at h; cases h; simp
  | none =>
    rw [hq] at h
    cases hf : c.file with
    | nil => rw [hf] at h; cases h
    | cons a rest => rw [hf] at h; cases h; simp [hf]

/-- A successful `peek` consumes one unread line. -/
theorem peek_file_lt {c : Cursor} {l : String} {c' : Cursor}
    (h : peek c = .ok (l, c')) : c'.file.length < c.file.length := by
  unfold peek at h
  cases hf : c.file with
  | nil => rw [hf] at h; cases h
  | cons a rest => rw [hf] at h; cases h; simp [hf]

/-! ## The head/tail grouped readers

`IFFChangesReader`, `IFFXChangesReader`, `IFFStationConnectionReader`,
`IFFTimeZoneReader`, `IFFTransportModeQuestionReader` and
`IFFTransportAttributeQuestionReader` share one `__next__` shape: parse a
mandatory head line, initialise a list field, `peek`, and while the peeked
line's first character is one of the grammar's tail markers, consume and
parse it, append it to the list field, and `peek` again; a `StopIteration`
anywhere inside the loop body is caught and the record built so far is
returned.  The initial `peek` is *outside* the `try`. -/

/-- The parameters distinguishing the six head/tail grouped grammars. -/
structure GroupGrammar where
  headRE : RE
  tailRE : RE
  markers : List Char
  field : String

/-- The tail loop (`while next_line[0] == ...`).  At entry `nl` is the line
just peeked (so it is the last element of the pushback list of `c`). -/
def groupLoop (g : GroupGrammar) (change : Rec) (nl : String) (c : Cursor) :
    Except PyErr (Rec × Cursor) :=
  match charAt nl with
  | .error e => .error e                  -- `next_line[0]` on an empty line
  | .ok ch =>
    if g.markers.contains ch then
      match h1 : next_line c with
      | .error .stopIteration => .ok (change, c)     -- caught: return record
      | .error e => .error e
      | .ok (row, c1) =>
        match parse_row g.tailRE row with
        | .error e => .error e            -- parse failures are not caught
        | .ok r =>
          let change1 := appendToField change g.field (.vrec r)
          match h2 : peek c1 with
          | .error .stopIteration => .ok (change1, c1)  -- caught: return record
          | .error e => .error e
          | .ok (nl2, c2) => groupLoop g change1 nl2 c2
    else .ok (change, c)
termination_by c.file.length
decreasing_by exact lt_of_lt_of_le (peek_file_lt h2) (next_line_file_le h1)

/-- `__next__` of a head/tail grouped reader: parse the head line, set the
list field to `[]`, `peek` (any `StopIteration` here propagates — this
first probe is outside the `try`), then run the tail loop. -/
def groupedNext (g : GroupGrammar) (c : Cursor) : Except PyErr (Rec × Cursor) := do
  let (row, c1) ← next_line c
  let head ← parse_row g.headRE row
  let change := setK head g.field (.vlist [])
  let (nl, c2) ← peek c1
  groupLoop g change nl c2

/-- `IFFChangesReader`'s grammar parameters. -/
def changesGrammar : GroupGrammar :=
  ⟨IFFChangesReader_REGEXP, IFFChangesReader_CHANGE_REGEXP, ['-'], "changes"⟩

/-- `IFFChangesReader.__next__`. -/
def IFFChangesReader_next : Cursor → Except PyErr (Rec × Cursor) :=
  groupedNext changesGrammar

/-- `IFFXChangesReader`'s grammar parameters. -/
def xchangesGrammar : GroupGrammar :=
  ⟨IFFXChangesReader_REGEXP, IFFXChangesReader_XCHANGE_REGEXP, ['-'], "xchanges"⟩

/-- `IFFXChangesReader.__next__`. -/
def IFFXChangesReader_next : Cursor → Except PyErr (Rec × Cursor) :=
  groupedNext xchangesGrammar

/-- `IFFStationConnectionReader`'s grammar parameters. -/
def stationConnectionGrammar : GroupGrammar :=
  ⟨IFFStationConnectionReader_REGEXP, IFFStationConnectionReader_INFLECT_REGEXP,
   ['&'], "inflections"⟩

/-- `IFFStationConnectionReader.__next__`. -/
def IFFStationConnectionReader_next : Cursor → Except PyErr (Rec × Cursor) :=
  groupedNext stationConnectionGrammar

/-- `IFFTimeZoneReader`'s grammar parameters (two tail markers,
`next_line[0] == "-" or next_line[0] == "+"`). -/
def timeZoneGrammar : GroupGrammar :=
  ⟨IFFTimeZoneReader_REGEXP, IFFTimeZoneReader_PERIOD_REGEXP, ['-', '+'], "periods"⟩

/-- `IFFTimeZoneReader.__next__`. -/
def IFFTimeZoneReader_next : Cursor → Except PyErr (Rec × Cursor) :=
  groupedNext timeZoneGrammar

/-- `IFFTransportModeQuestionReader`'s grammar parameters. -/
def transportModeQuestionGrammar : GroupGrammar :=
  ⟨IFFTransportModeQuestionReader_REGEXP,
   IFFTransportModeQuestionReader_TRANSPORT_MODE_REGEXP, ['-'], "modes"⟩

/-- `IFFTransportModeQuestionReader.__next__`. -/
def IFFTransportModeQuestionReader_next : Cursor → Except PyErr (Rec × Cursor) :=
  groupedNext transportModeQuestionGrammar

/-- `IFFTransportAttributeQuestionReader`'s grammar parameters. -/
def transportAttributeQuestionGrammar : GroupGrammar :=
  ⟨IFFTransportAttributeQuestionReader_REGEXP,
   IFFTransportAttributeQuestionReader_TRANSPORT_ATTRIBUTE_REGEXP, ['-'], "attributes"⟩

/-- `IFFTransportAttributeQuestionReader.__next__`. -/
def IFFTransportAttributeQuestionReader_next : Cursor → Except PyErr (Rec × Cursor) :=
  groupedNext transportAttributeQuestionGrammar

/-! ## The synonym reader (`IFFSynonymReader.__next__`) -/

/-- `IFFSynonymReader.__next__`: read one line and dispatch on its first
character through the `if/elif` chain; each branch parses with its own
pattern and the discriminant is stored under `synonym_type` afterwards.
When no branch matches, the local `synonym` was never assigned and reading
it raises `UnboundLocalError`. -/
def IFFSynonymReader_next (c : Cursor) : Except PyErr (Rec × Cursor) := do
  let (row, c1) ← next_line c
  let ch ← charAt row
  let tagged : Except PyErr Rec :=
    if ch = '*' then
      (parse_row IFFSynonymReader_TRANSPORT_ATTRIBUTE_REGEXP row).map
        (setK · "synonym_type" (.vs "transport_attribute"))
    else if ch = '&' then
      (parse_row IFFSynonymReader_TRANSPORT_MODE_REGEXP row).map
        (setK · "synonym_type" (.vs "transport_mode"))
    else if ch = '$' then
      (parse_row IFFSynonymReader_TRANSPORT_ATTRIBUTE_QUESTION_REGEXP row).map
        (setK · "synonym_type" (.vs "transport_attribute_question"))
    else if ch = '#' then
      (parse_row IFFSynonymReader_TRANSPORT_MODE_QUESTION_REGEXP row).map
        (setK · "synonym_type" (.vs "transport_mode_question"))
    else if ch = '%' then
      (parse_row IFFSynonymReader_CONNECTION_MODE_REGEXP row).map
        (setK · "synonym_type" (.vs "connection_mode"))
    else if ch = '+' then
      (parse_row IFFSynonymReader_STATION_REGEXP row).map
        (setK · "synonym_type" (.vs "station"))
    else if ch = '-' then
      (parse_row IFFSynonymReader_GROUP_REGEXP row).map
        (setK · "synonym_type" (.vs "group"))
    else if ch = '.' then
      (parse_row IFFSynonymReader_COUNTRY_REGEXP row).map
        (setK · "synonym_type" (.vs "country"))
    else .error .unboundLocal
  let syn ← tagged
  .ok (syn, c1)

/-- The synonym dispatch as data, following the amended claim's words: a
lookup table from marker character to (pattern, discriminant); a line whose
first character is in the table is parsed with that pattern and tagged with
that discriminant, and a line whose first character misses the table makes
the call fail with `UnboundLocalError` — there is no default branch. -/
def synonymDispatchTable : List (Char × RE × String) :=
  [('*', IFFSynonymReader_TRANSPORT_ATTRIBUTE_REGEXP, "transport_attribute"),
   ('&', IFFSynonymReader_TRANSPORT_MODE_REGEXP, "transport_mode"),
   ('$', IFFSynonymReader_TRANSPORT_ATTRIBUTE_QUESTION_REGEXP, "transport_attribute_question"),
   ('#', IFFSynonymReader_TRANSPORT_MODE_QUESTION_REGEXP, "transport_mode_question"),
   ('%', IFFSynonymReader_CONNECTION_MODE_REGEXP, "connection_mode"),
   ('+', IFFSynonymReader_STATION_REGEXP, "station"),
   ('-', IFFSynonymReader_GROUP_REGEXP, "group"),
   ('.', IFFSynonymReader_COUNTRY_REGEXP, "country")]

/-- Table-driven restatement of the synonym dispatch (the amended claim's
reading of `IFFSynonymReader.__next__` on one line). -/
def synonymSpecDispatch (row : String) : Except PyErr Rec := do
  let ch ← charAt row
  match synonymDispatchTable.lookup ch with
  | some (re, tag) => (parse_row re row).map (setK · "synonym_type" (.vs tag))
  | none => .error .unboundLocal

/-! ## The footnote reader (`IFFFootnoteReader`) -/

/-- One step of `IFFFootnoteReader.date_range_generator`'s `DateIterator`:
starting from `start_date - 1`, stop when the loop date equals `end_date`,
else advance one day and yield.  `fuel` bounds the number of `__next__`
calls; `none` means the iteration did not finish within `fuel` steps (for
`end_date < start_date - 1` the Python loop never terminates). -/
def dateRangeAux (loopDate endDate : Int) (fuel : Nat) : Option (List Int) :=
  match fuel with
  | 0 => none
  | f + 1 =>
    if loopDate = endDate then some []
    else (dateRangeAux (loopDate + 1) endDate f).map ((loopDate + 1) :: ·)

/-- `[d for d in self.date_range_generator()]` as computed in
`IFFFootnoteReader.__init__`, from the document's `start_date` and
`end_date` (as ordinals).  The fuel `(end - start + 2)` is exactly enough
whenever the Python loop terminates. -/
def date_range (startDate endDate : Int) : Option (List Int) :=
  dateRangeAux (startDate - 1) endDate (endDate - startDate + 2).toNat

/-- `IFFFootnoteReader.__next__`, parameterised by the materialised
`self.date_range` list: parse the `#`-line, read the vector line and strip
it, zip dates with vector characters, then classify by comparing the count
of non-`'1'` characters with the count of non-`'0'` characters
(`len(vector.replace("1", "")) > len(vector.replace("0", ""))`). -/
def IFFFootnoteReader_next (dateRange : List Int) (c : Cursor) :
    Except PyErr (Rec × Cursor) := do
  let (row, c1) ← next_line c
  let footnote ← parse_row IFFFootnoteReader_REGEXP row
  let (vline, c2) ← next_line c1
  let vector := pyStrip vline
  let dateVector := dateRange.zip vector.data
  if (vector.data.filter (· ≠ '1')).length > (vector.data.filter (· ≠ '0')).length then
    let included := (dateVector.filter (fun dv => dv.2 = '1')).map (fun dv => Val.vd dv.1)
    .ok (setK (setK footnote "type" (.vs "only")) "included" (.vlist included), c2)
  else
    let excluded := (dateVector.filter (fun dv => dv.2 = '0')).map (fun dv => Val.vd dv.1)
    .ok (setK (setK footnote "type" (.vs "except")) "excluded" (.vlist excluded), c2)

/-! ## The service/timetable reader (`IFFTimeTablesReader.__next__`) -/

/-- `stop in service["route"]` (Python list membership via `==`). -/
def routeMem (service : Rec) (stop : Rec) : Bool :=
  match getK service "route" with
  | some (.vlist l) => l.any (valBEq (.vrec stop))
  | _ => false

/-- `service["route"].append(stop)`. -/
def appendRoute (service : Rec) (stop : Rec) : Rec :=
  appendToField service "route" (.vrec stop)

/-- One optional sub-group scan of the timetable grammar
(`while next_line[0] == m: parse and append; peek`).  Unlike the grouped
readers there is no `try` here: a `StopIteration` from `peek` (or the
parse failures) propagates out of `__next__`.  At entry `nl` is the line
just peeked. -/
def scanPlain (tailRE : RE) (marker : Char) (fld : String) (service : Rec)
    (nl : String) (c : Cursor) : Except PyErr (Rec × String × Cursor) :=
  match charAt nl with
  | .error e => .error e
  | .ok ch =>
    if ch = marker then
      match h1 : next_line c with
      | .error e => .error e
      | .ok (row, c1) =>
        match parse_row tailRE row with
        | .error e => .error e
        | .ok r =>
          let service1 := appendToField service fld (.vrec r)
          match h2 : peek c1 with
          | .error e => .error e
          | .ok (nl2, c2) => scanPlain tailRE marker fld service1 nl2 c2
    else .ok (service, nl, c)
termination_by c.file.length
decreasing_by exact lt_of_lt_of_le (peek_file_lt h2) (next_line_file_le h1)

/-- Result of the inner passing-stop loop (`while next_line[0] == ";"`):
either the loop exits normally (the peeked line is not a `;` line), or a
`StopIteration` was raised inside it — which the enclosing `try` catches
with the current `stop` variable — or some other exception propagates. -/
inductive PassingExit where
  | normal (service stop : Rec) (nl : String) (c : Cursor)
  | eof (service stop : Rec) (nl : String) (c : Cursor)
  | err (e : PyErr)

/-- The passing-stop loop.  Each round consumes the peeked `;` line, parses
it into a fresh `stop` (note: no `stop_index` and no `platform` field is
added to passing stops), peeks the next line (a `StopIteration` here leaves
the freshly parsed stop *not yet* appended), and appends the stop to the
route. -/
def passingLoop (service stop : Rec) (nl : String) (c : Cursor) : PassingExit :=
  match charAt nl with
  | .error e => .err e
  | .ok ch =>
    if ch = ';' then
      match h1 : next_line c with
      | .error .stopIteration => .eof service stop nl c
      | .error e => .err e
      | .ok (row, c1) =>
        match parse_row IFFTimeTablesReader_PASSING_REGEXP row with
        | .error e => .err e
        | .ok pstop =>
          match h2 : peek c1 with
          | .error .stopIteration => .eof service pstop nl c1
          | .error e => .err e
          | .ok (nl2, c2) => passingLoop (appendRoute service pstop) pstop nl2 c2
    else .normal service stop nl c
termination_by c.file.length
decreasing_by exact lt_of_lt_of_le (peek_file_lt h2) (next_line_file_le h1)

/-- The `except StopIteration` handler of the route loop
(`if not stop in service["route"]: service["route"].append(stop)`), applied
to the current value of the `stop` variable; `stopVar = none` models the
variable never having been assigned (then Python would raise
`UnboundLocalError`; that state is unreachable). -/
def routeEofAppend (service : Rec) (stop : Rec) : Rec :=
  if routeMem service stop then service else appendRoute service stop

/-- `stop["platform"] = []; stop["stop_index"] = stop_index`: the metadata
the route loop adds to every non-passing stop record. -/
def stampStop (r : Rec) (i : Nat) : Rec :=
  setK (setK r "platform" (.vlist [])) "stop_index" (.vi (i : Int))

/-- The route loop (`while not last_stop_done`) of
`IFFTimeTablesReader.__next__`.  The whole body is inside
`try ... except StopIteration`, and the handler appends the in-progress
stop but neither breaks nor returns, so the loop only exits once a
final-marker (`<`) stop has been parsed; on a truncated route the loop
runs forever, which the fuel makes observable as `.error .fuelOut`.
Arguments: `stopIdx` is `stop_index`, `stopVar` the current `stop`
variable, `nl` the `next_line` variable (the most recently peeked line,
still buffered at entry), `c` the cursor. -/
def routeLoop (fuel : Nat) (service : Rec) (stopIdx : Nat) (stopVar : Option Rec)
    (nl : String) (c : Cursor) : Except PyErr (Rec × Cursor) :=
  match fuel with
  | 0 => .error .fuelOut
  | fuel + 1 =>
    match next_line c with
    | .error .stopIteration =>
      -- `row = self.next_line()` raised: run the handler and loop again
      -- (`last_stop_done` is still false whenever this point is reached).
      match stopVar with
      | none => .error .unboundLocal
      | some st => routeLoop fuel (routeEofAppend service st) stopIdx stopVar nl c
    | .error e => .error e
    | .ok (row, c1) =>
      match charAt nl with
      | .error e => .error e
      | .ok ch =>
        -- `stop = {}` then the marker dispatch on the peeked line
        let stopRes : Except PyErr (Rec × Bool) :=
          if ch = '>' then (parse_row IFFTimeTablesReader_START_REGEXP row).map ((·, false))
          else if ch = '+' then (parse_row IFFTimeTablesReader_INTERVAL_REGEXP row).map ((·, false))
          else if ch = '.' then (parse_row IFFTimeTablesReader_CONTINUATION_REGEXP row).map ((·, false))
          else if ch = '<' then (parse_row IFFTimeTablesReader_FINAL_REGEXP row).map ((·, true))
          else .ok ([], false)
        match stopRes with
        | .error e => .error e
        | .ok (stop0, lastDone) =>
          let stopIdx1 := stopIdx + 1
          let stop1 := stampStop stop0 stopIdx1
          match peek c1 with
          | .error .stopIteration =>
            -- handler: append the just-built stop, then re-check the loop guard
            let service1 := routeEofAppend service stop1
            if lastDone then .ok (service1, c1)
            else routeLoop fuel service1 stopIdx1 (some stop1) nl c1
          | .error e => .error e
          | .ok (nl2, c2) =>
            -- optional platform line
            match charAt nl2 with
            | .error e => .error e
            | .ok ch2 =>
              let afterPlatform : Except PyErr (Rec × String × Cursor) ⊕ (Rec × Cursor) :=
                if ch2 = '?' then
                  match next_line c2 with
                  | .error .stopIteration => .inr (stop1, c2)   -- unreachable; handler shape
                  | .error e => .inl (.error e)
                  | .ok (prow, c3) =>
                    match parse_row IFFTimeTablesReader_PLATFORM_REGEXP prow with
                    | .error e => .inl (.error e)
                    | .ok pr =>
                      let stop2 := appendToField stop1 "platform" (.vrec pr)
                      match peek c3 with
                      | .error .stopIteration => .inr (stop2, c3)
                      | .error e => .inl (.error e)
                      | .ok (nl3, c4) => .inl (.ok (stop2, nl3, c4))
                else .inl (.ok (stop1, nl2, c2))
              match afterPlatform with
              | .inl (.error e) => .error e
              | .inr (stopE, cE) =>
                -- `StopIteration` while handling the platform line: handler
                let service1 := routeEofAppend service stopE
                if lastDone then .ok (service1, cE)
                else routeLoop fuel service1 stopIdx1 (some stopE) nl2 cE
              | .inl (.ok (stop2, nlv, cv)) =>
                -- `service["route"].append(stop)` then the passing loop
                let service1 := appendRoute service stop2
                match passingLoop service1 stop2 nlv cv with
                | .err e => .error e
                | .eof s st nlE cE =>
                  let s1 := routeEofAppend s st
                  if lastDone then .ok (s1, cE)
                  else routeLoop fuel s1 stopIdx1 (some st) nlE cE
                | .normal s st nl3 c3 =>
                  if lastDone then .ok (s, c3)
                  else routeLoop fuel s stopIdx1 (some st) nl3 c3

/-- `IFFTimeTablesReader.__next__`: parse the service head line, scan the
four strictly ordered optional sub-groups (`%` numbers, `-` validities,
`&` transport modes, `*` attributes — these scans are *not* under a `try`,
so end-of-input inside them propagates), then run the route loop. -/
def IFFTimeTablesReader_next (fuel : Nat) (c : Cursor) : Except PyErr (Rec × Cursor) := do
  let (row, c1) ← next_line c
  let service ← parse_row IFFTimeTablesReader_REGEXP row
  let service := setK service "numbers" (.vlist [])
  let (nl, c2) ← peek c1
  let (service, nl, c3) ← scanPlain IFFTimeTablesReader_NUMBER_REGEXP '%' "numbers" service nl c2
  let service := setK service "validities" (.vlist [])
  let (service, nl, c4) ← scanPlain IFFTimeTablesReader_VALIDITY_REGEXP '-' "validities" service nl c3
  let service := setK service "transport_modes" (.vlist [])
  let (service, nl, c5) ← scanPlain IFFTimeTablesReader_TRANSPORT_MODE_REGEXP '&' "transport_modes" service nl c4
  let service := setK service "attributes" (.vlist [])
  let (service, nl, c6) ← scanPlain IFFTimeTablesReader_ATTRIBUTE_REGEXP '*' "attributes" service nl c5
  let service := setK service "route" (.vlist [])
  routeLoop fuel service 0 none nl c6

/-! ## Record (dict) lemmas -/

/-- Looking up the key just set returns the value just set. -/
theorem getK_setK (r : Rec) (k : String) (v : Val) : getK (setK r k v) k = some v := by
  induction r with
  | nil => simp [getK, setK]
  | cons p rest ih =>
    obtain ⟨k', v'⟩ := p
    by_cases h : k' = k <;> simp [getK, setK, h, ih]

/-- Setting the same key twice keeps only the second value. -/
theorem setK_setK (r : Rec) (k : String) (v w : Val) :
    setK (setK r k v) k w = setK r k w := by
  induction r with
  | nil => simp [setK]
  | cons p rest ih =>
    obtain ⟨k', v'⟩ := p
    by_cases h : k' = k <;> simp [setK, h, ih]

/-- Appending to a list field that holds `l` appends to `l`. -/
theorem appendToField_setK (base : Rec) (fld : String) (l : List Val) (v : Val) :
    appendToField (setK base fld (.vlist l)) fld v = setK base fld (.vlist (l ++ [v])) := by
  simp [appendToField, getK_setK, setK_setK]

/-- Folding appends over an initialised list field collects the appended
values in order. -/
theorem foldl_appendToField (trs : List Val) (base : Rec) (fld : String) (l : List Val) :
    trs.foldl (fun c r => appendToField c fld r) (setK base fld (.vlist l)) =
      setK base fld (.vlist (l ++ trs)) := by
  induction trs generalizing l with
  | nil => simp
  | cons t rest ih => simp [appendToField_setK, ih, List.append_assoc]

/-! ## C3 — the cursor's peek/pushback behaviour -/

/-- C3 (counterexample): two consecutive `peek` calls with no intervening
`next_line` do *not* return the same line — each `peek` reads a further
source line and appends it to the pushback buffer, which afterwards holds
two lines, contradicting both halves of the claim. -/
theorem C3_peek_not_idempotent_cex :
    peek ⟨[], ["a", "b"]⟩ = .ok ("a", ⟨["a"], ["b"]⟩) ∧
    peek ⟨["a"], ["b"]⟩ = .ok ("b", ⟨["a", "b"], []⟩) ∧
    ("a" : String) ≠ "b" ∧
    (Cursor.mk ["a", "b"] []).pushed_back.length = 2 := by
  refine ⟨rfl, rfl, by decide, rfl⟩

/-- C3 (amended): `peek` is not idempotent.  From a cursor with an empty
pushback buffer and at least two unread lines, the first `peek` returns the
first line and buffers it; a second consecutive `peek` returns the *second*
line, leaving two lines buffered; a `next_line` after a single `peek`
returns the peeked line again and re-empties the buffer (the
peek-then-consume discipline every grammar in the reader follows, under
which at most one line is ever buffered). -/
theorem C3_peek_amended (c : Cursor) (l1 l2 : String) (rest : List String)
    (hp : c.pushed_back = []) (hf : c.file = l1 :: l2 :: rest) :
    peek c = .ok (l1, ⟨[l1], l2 :: rest⟩) ∧
    peek ⟨[l1], l2 :: rest⟩ = .ok (l2, ⟨[l1, l2], rest⟩) ∧
    next_line ⟨[l1], l2 :: rest⟩ = .ok (l1, ⟨[], l2 :: rest⟩) := by
  obtain ⟨pb, fl⟩ := c
  cases hp; cases hf
  exact ⟨rfl, rfl, rfl⟩

/-- C3 witness: the amended behaviour at the concrete two-line source. -/
theorem C3_peek_amended_witness :
    (Cursor.mk [] ["a", "b"]).pushed_back = [] ∧
    peek ⟨[], ["a", "b"]⟩ = .ok ("a", ⟨["a"], ["b"]⟩) ∧
    peek ⟨["a"], ["b"]⟩ = .ok ("b", ⟨["a", "b"], []⟩) ∧
    next_line ⟨["a"], ["b"]⟩ = .ok ("a", ⟨[], ["b"]⟩) :=
  ⟨rfl, C3_peek_amended ⟨[], ["a", "b"]⟩ "a" "b" [] rfl rfl⟩

/-! ## C8 — time tokens carry no modulo-24 reduction -/

/-- The canonical two-digit decimal rendering of `n < 100`. -/
def twoDigits (n : Nat) : String :=
  ⟨[Nat.digitChar (n / 10), Nat.digitChar (n % 10)]⟩

/-- `int` of a two-decimal-digit string. -/
theorem pyInt_digitPair (a b : Nat) (ha : a < 10) (hb : b < 10) :
    pyInt ⟨[Nat.digitChar a, Nat.digitChar b]⟩ = .ok ((10 * a + b : Nat) : Int) := by
  interval_cases a <;> interval_cases b <;> rfl

/-- C8: every 4-character hour-minute token decodes to
`hours * 60 + minutes` minutes since local midnight — in particular hours
≥ 24 are kept as-is, with no modulo-24 wraparound. -/
theorem C8_time_no_mod24 (h m : Nat) (hh : h < 100) (hm : m < 100) :
    IFFtime (twoDigits h ++ twoDigits m) = .ok ((h : Int) * 60 + (m : Int)) := by
  have hdata : (twoDigits h ++ twoDigits m).data =
      [Nat.digitChar (h / 10), Nat.digitChar (h % 10),
       Nat.digitChar (m / 10), Nat.digitChar (m % 10)] := by
    simp [twoDigits, String.data_append]
  have h1 : strSlice (twoDigits h ++ twoDigits m) 0 2 =
      ⟨[Nat.digitChar (h / 10), Nat.digitChar (h % 10)]⟩ := by
    simp [strSlice, hdata]
  have h2 : strSlice (twoDigits h ++ twoDigits m) 2 4 =
      ⟨[Nat.digitChar (m / 10), Nat.digitChar (m % 10)]⟩ := by
    simp [strSlice, hdata]
  have ph := pyInt_digitPair (h / 10) (h % 10) (by omega) (by omega)
  have pm := pyInt_digitPair (m / 10) (m % 10) (by omega) (by omega)
  have hh10 : 10 * (h / 10) + h % 10 = h := by omega
  have hm10 : 10 * (m / 10) + m % 10 = m := by omega
  rw [hh10] at ph
  rw [hm10] at pm
  simp only [IFFtime, h1, h2, ph, pm]
  rfl

/-- C8 witness: `"2510"` decodes to 1510 minutes = 25 h 10 min past local
midnight (not 70 minutes = 01:10). -/
theorem C8_time_no_mod24_witness :
    (25 : Nat) < 100 ∧ IFFtime "2510" = .ok 1510 ∧ (1510 : Int) = 25 * 60 + 10 := by
  refine ⟨by decide, ?_, by decide⟩
  have h := C8_time_no_mod24 25 10 (by decide) (by decide)
  rw [(by decide : twoDigits 25 ++ twoDigits 10 = "2510")] at h
  simpa using h

/-! ## C5 — the decoded date range is the *closed* window -/

/-- `dateRangeAux` yields the `k` successors of `loopDate` whenever
`loopDate + k = endDate` and the fuel covers the `k + 1` loop rounds. -/
theorem dateRangeAux_eq (k : Nat) : ∀ (loopDate endDate : Int) (f : Nat),
    loopDate + k = endDate → k + 1 ≤ f →
    dateRangeAux loopDate endDate f =
      some ((List.range k).map (fun i : Nat => loopDate + 1 + (i : Int))) := by
  induction k with
  | zero =>
    intro loopDate endDate f hk hf
    have heq : loopDate = endDate := by omega
    subst heq
    match f, hf with
    | f + 1, _ => simp [dateRangeAux]
  | succ k ih =>
    intro loopDate endDate f hk hf
    match f, hf with
    | f + 1, hf =>
      have hne : loopDate ≠ endDate := by omega
      have := ih (loopDate + 1) endDate f (by omega) (by omega)
      simp only [dateRangeAux, hne, if_false, this, Option.map_some',
        List.range_succ_eq_map, List.map_cons, List.map_map]
      congr 1
      congr 1
      · simp
      · exact List.map_congr_left (fun i _ => by
          simp only [Function.comp_apply]
          push_cast
          ring)

/-- C5 (amended): for `start_date ≤ end_date` the list of dates the
footnote decoder pairs with vector characters is
`start_date, start_date + 1, …, end_date` **inclusive** — the closed
window `[start_date, end_date]`, so `end_date` itself is among the paired
dates (the claim's half-open `[start_date, end_date)` is wrong). -/
theorem C5_date_range_amended (s e : Int) (hse : s ≤ e) :
    date_range s e = some ((List.range (e - s + 1).toNat).map (fun i : Nat => s + (i : Int))) ∧
    (∀ d : Int, d ∈ (List.range (e - s + 1).toNat).map (fun i : Nat => s + (i : Int)) ↔
      s ≤ d ∧ d ≤ e) := by
  constructor
  · have h := dateRangeAux_eq (e - s + 1).toNat (s - 1) e (e - s + 2).toNat
      (by omega) (by omega)
    rw [date_range, h]
    congr 1
    exact List.map_congr_left (fun i _ => by omega)
  · intro d
    simp only [List.mem_map, List.mem_range]
    constructor
    · rintro ⟨i, hi, rfl⟩
      omega
    · intro ⟨h1, h2⟩
      exact ⟨(d - s).toNat, by omega, by omega⟩

/-- C5 witness: the window with ordinals 0..2 decodes to `[0, 1, 2]`,
which contains the end date 2. -/
theorem C5_date_range_amended_witness :
    (0 : Int) ≤ 2 ∧ date_range 0 2 = some [0, 1, 2] ∧
    (2 : Int) ∈ ([0, 1, 2] : List Int) := by
  refine ⟨by decide, ?_, by decide⟩
  have h := (C5_date_range_amended 0 2 (by decide)).1
  simpa using h

/-- C5 (counterexample): with validity window `[0, 2]` and vector `"001"`,
the decoder pairs `end_date = 2` with the final `'1'` and records it in the
`included` set — `end_date` is *not* excluded from the pairing. -/
theorem C5_end_date_in_pairing_cex :
    date_range 0 2 = some [0, 1, 2] ∧
    IFFFootnoteReader_next [0, 1, 2] ⟨[], ["#00001", "001"]⟩ =
      .ok ([("footnote_number", .vi 1), ("type", .vs "only"),
            ("included", .vlist [.vd 2])], ⟨[], []⟩) := by
  exact ⟨rfl, rfl⟩

/-! ## C7 — the "101" example decodes to `except`, not `only` -/

/-- C7 (counterexample): decoding vector `"101"` over the 3-day window
`[0, 1, 2]` yields classification `except` with excluded = {day 2}; the
record carries no `included` set at all, so the claimed
`only`/{day 1, day 3} outcome is false. -/
theorem C7_footnote_101_cex :
    IFFFootnoteReader_next [0, 1, 2] ⟨[], ["#00001", "101"]⟩ =
      .ok ([("footnote_number", .vi 1), ("type", .vs "except"),
            ("excluded", .vlist [.vd 1])], ⟨[], []⟩) ∧
    getK [("footnote_number", (.vi 1 : Val)), ("type", .vs "except"),
          ("excluded", .vlist [.vd 1])] "type" ≠ some (.vs "only") ∧
    getK [("footnote_number", (.vi 1 : Val)), ("type", .vs "except"),
          ("excluded", .vlist [.vd 1])] "included" = none := by
  refine ⟨rfl, ?_, rfl⟩
  intro h
  simp [getK] at h

/-- C7 (amended): `"101"` has two `'1'`s and one `'0'`, so the ones are not
in the strict minority and the decoder classifies `except`, recording
exactly the dates whose character is `'0'` — here {day 2} of the window. -/
theorem C7_footnote_101_amended :
    IFFFootnoteReader_next [0, 1, 2] ⟨[], ["#00001", "101"]⟩ =
      .ok ([("footnote_number", .vi 1), ("type", .vs "except"),
            ("excluded", .vlist [.vd 1])], ⟨[], []⟩) := rfl

/-! ## C6 / C9 — footnote classification and vector pairing -/

/-- Binding a success just applies the continuation (`Except` monad). -/
theorem Except_ok_bind {α β : Type} (a : α) (f : α → Except PyErr β) :
    ((Except.ok a : Except PyErr α) >>= f) = f a := rfl

/-- The characters a filter drops are exactly the occurrences counted:
`len(v.replace(c, "")) + v.count(c) = len(v)`. -/
theorem filter_ne_length_add_count (c : Char) (l : List Char) :
    (l.filter (· ≠ c)).length + l.count c = l.length := by
  induction l with
  | nil => simp
  | cons a rest ih =>
    by_cases h : a = c <;>
      simp [List.filter_cons, List.count_cons, h] at ih ⊢ <;>
      omega

/-- C6: for a footnote whose stripped vector is all `'0'`/`'1'` and exactly
as long as the validity-window date list, the decoder classifies `only`
exactly when the `'1'`s are in the strict minority, recording the dates
paired with `'1'`; otherwise — ties included — it classifies `except`,
recording the dates paired with `'0'`. -/
theorem C6_footnote_classification (dr : List Int) (hl vline : String) (fnr : Rec)
    (hhead : parse_row IFFFootnoteReader_REGEXP hl = .ok fnr)
    (hbits : ∀ ch ∈ (pyStrip vline).data, ch = '0' ∨ ch = '1')
    (hlen : (pyStrip vline).data.length = dr.length) :
    IFFFootnoteReader_next dr ⟨[], [hl, vline]⟩ =
      .ok ((if (pyStrip vline).data.count '1' < (pyStrip vline).data.count '0'
        then setK (setK fnr "type" (.vs "only")) "included"
          (.vlist (((dr.zip (pyStrip vline).data).filter (fun dv => dv.2 = '1')).map
            (fun dv => Val.vd dv.1)))
        else setK (setK fnr "type" (.vs "except")) "excluded"
          (.vlist (((dr.zip (pyStrip vline).data).filter (fun dv => dv.2 = '0')).map
            (fun dv => Val.vd dv.1)))),
       ⟨[], []⟩) := by
  have h1 : next_line ⟨[], [hl, vline]⟩ = .ok (hl, ⟨[], [vline]⟩) := rfl
  have h2 : next_line ⟨[], [vline]⟩ = .ok (vline, ⟨[], []⟩) := rfl
  have e1 := filter_ne_length_add_count '1' (pyStrip vline).data
  have e0 := filter_ne_length_add_count '0' (pyStrip vline).data
  have hcond : (((pyStrip vline).data.filter (· ≠ '1')).length >
      ((pyStrip vline).data.filter (· ≠ '0')).length) ↔
      ((pyStrip vline).data.count '1' < (pyStrip vline).data.count '0') := by
    omega
  simp only [IFFFootnoteReader_next, h1, h2, hhead, Except_ok_bind]
  by_cases hc : (pyStrip vline).data.count '1' < (pyStrip vline).data.count '0'
  · rw [if_pos (hcond.mpr hc), if_pos hc]
  · rw [if_neg (fun hA => hc (hcond.mp hA)), if_neg hc]

/-- C6 witness: the spec's own example — vector `"011"` over a 3-day
window decodes to `except` with excluded = {day 1}. -/
theorem C6_footnote_classification_witness :
    (∀ ch ∈ (pyStrip "011").data, ch = '0' ∨ ch = '1') ∧
    IFFFootnoteReader_next [0, 1, 2] ⟨[], ["#00001", "011"]⟩ =
      .ok ([("footnote_number", .vi 1), ("type", .vs "except"),
            ("excluded", .vlist [.vd 0])], ⟨[], []⟩) := by
  refine ⟨by decide, ?_⟩
  have h := C6_footnote_classification [0, 1, 2] "#00001" "011"
    [("footnote_number", .vi 1)] rfl (by decide) rfl
  rw [if_neg (by decide)] at h
  exact h

/-- Zipping truncates to the shorter list: only the common prefix is ever
paired. -/
theorem zip_take_take {α β : Type} (l : List α) (m : List β) :
    l.zip m = (l.take m.length).zip (m.take l.length) := by
  induction l generalizing m with
  | nil => simp
  | cons a l ih =>
    cases m with
    | nil => simp
    | cons b m => simp [List.zip_cons_cons, ih]

/-- C9: whatever the relative lengths of the vector and the validity-window
date list, the decoder raises no error: it returns a record whose
included/excluded set is built only from the pairs of the common prefix
(`zip` stops at the shorter sequence); the excess dates or excess vector
characters simply never enter the set. -/
theorem C9_vector_length_mismatch (dr : List Int) (hl vline : String) (fnr : Rec)
    (hhead : parse_row IFFFootnoteReader_REGEXP hl = .ok fnr) :
    IFFFootnoteReader_next dr ⟨[], [hl, vline]⟩ =
      .ok ((if ((pyStrip vline).data.filter (· ≠ '1')).length >
              ((pyStrip vline).data.filter (· ≠ '0')).length
        then setK (setK fnr "type" (.vs "only")) "included"
          (.vlist ((((dr.take (pyStrip vline).data.length).zip
              ((pyStrip vline).data.take dr.length)).filter (fun dv => dv.2 = '1')).map
            (fun dv => Val.vd dv.1)))
        else setK (setK fnr "type" (.vs "except")) "excluded"
          (.vlist ((((dr.take (pyStrip vline).data.length).zip
              ((pyStrip vline).data.take dr.length)).filter (fun dv => dv.2 = '0')).map
            (fun dv => Val.vd dv.1)))),
       ⟨[], []⟩) := by
  have h1 : next_line ⟨[], [hl, vline]⟩ = .ok (hl, ⟨[], [vline]⟩) := rfl
  have h2 : next_line ⟨[], [vline]⟩ = .ok (vline, ⟨[], []⟩) := rfl
  simp only [IFFFootnoteReader_next, h1, h2, hhead, Except_ok_bind]
  rw [zip_take_take dr (pyStrip vline).data]
  split <;> rfl

/-- C9 witness: a 2-date window with a 4-character vector decodes without
error; only the first two characters are paired, and the excess `"10"`
suffix is ignored. -/
theorem C9_vector_length_mismatch_witness :
    parse_row IFFFootnoteReader_REGEXP "#00001" = .ok [("footnote_number", .vi 1)] ∧
    IFFFootnoteReader_next [0, 1] ⟨[], ["#00001", "0110"]⟩ =
      .ok ([("footnote_number", .vi 1), ("type", .vs "except"),
            ("excluded", .vlist [.vd 0])], ⟨[], []⟩) := by
  refine ⟨rfl, ?_⟩
  have h := C9_vector_length_mismatch [0, 1] "#00001" "0110"
    [("footnote_number", .vi 1)] rfl
  rw [if_neg (by decide)] at h
  exact h

/-! ## C10 — synonym marker dispatch -/

/-- C10 (counterexample): the line `"*abc"` starts with the marker `'*'`,
yet the synonym reader does not return a record — the line fails the
`'*'` branch's pattern and the call raises `IFFReaderRowTypeException`.
So "first character is a marker" alone does not guarantee a record. -/
theorem C10_marker_line_raises_cex :
    charAt "*abc" = .ok '*' ∧
    IFFSynonymReader_next ⟨[], ["*abc"]⟩ = .error .rowType := ⟨rfl, rfl⟩

/-- Binding a failure short-circuits (`Except` monad). -/
theorem Except_error_bind {α β : Type} (e : PyErr) (f : α → Except PyErr β) :
    ((Except.error e : Except PyErr α) >>= f) = .error e := rfl

/-- C10 (amended): the synonym reader behaves exactly like the data-driven
dispatch table `synonymDispatchTable`: a line whose first character is one
of the eight markers is parsed with that marker's pattern and, if the
pattern matches, returned tagged with the corresponding discriminant (a
marker line that fails its pattern raises `IFFReaderRowTypeException`);
a line whose first character is none of the eight markers makes the call
fail with `UnboundLocalError` — there is no default branch.  (An empty
line raises `IndexError` from `row[0]` on both sides.) -/
theorem C10_synonym_dispatch_amended (row : String) (rest : List String) :
    IFFSynonymReader_next ⟨[], row :: rest⟩ =
      (synonymSpecDispatch row).map (fun r => (r, (⟨[], rest⟩ : Cursor))) := by
  have h0 : next_line ⟨[], row :: rest⟩ = .ok (row, ⟨[], rest⟩) := rfl
  simp only [IFFSynonymReader_next, synonymSpecDispatch, h0, Except_ok_bind]
  cases hch : charAt row with
  | error e => rfl
  | ok ch =>
    simp only [Except_ok_bind]
    by_cases h1 : ch = '*'
    · subst h1
      cases hp : parse_row IFFSynonymReader_TRANSPORT_ATTRIBUTE_REGEXP row <;>
        simp [synonymDispatchTable, List.lookup, hp, Except.map, Except_ok_bind,
          Except_error_bind]
    · by_cases h2 : ch = '&'
      · subst h2
        cases hp : parse_row IFFSynonymReader_TRANSPORT_MODE_REGEXP row <;>
          simp [synonymDispatchTable, List.lookup, hp, Except.map, Except_ok_bind,
            Except_error_bind]
      · by_cases h3 : ch = '$'
        · subst h3
          cases hp : parse_row IFFSynonymReader_TRANSPORT_ATTRIBUTE_QUESTION_REGEXP row <;>
            simp [synonymDispatchTable, List.lookup, hp, Except.map, Except_ok_bind,
              Except_error_bind]
        · by_cases h4 : ch = '#'
          · subst h4
            cases hp : parse_row IFFSynonymReader_TRANSPORT_MODE_QUESTION_REGEXP row <;>
              simp [synonymDispatchTable, List.lookup, hp, Except.map, Except_ok_bind,
                Except_error_bind]
          · by_cases h5 : ch = '%'
            · subst h5
              cases hp : parse_row IFFSynonymReader_CONNECTION_MODE_REGEXP row <;>
                simp [synonymDispatchTable, List.lookup, hp, Except.map, Except_ok_bind,
                  Except_error_bind]
            · by_cases h6 : ch = '+'
              · subst h6
                cases hp : parse_row IFFSynonymReader_STATION_REGEXP row <;>
                  simp [synonymDispatchTable, List.lookup, hp, Except.map, Except_ok_bind,
                    Except_error_bind]
              · by_cases h7 : ch = '-'
                · subst h7
                  cases hp : parse_row IFFSynonymReader_GROUP_REGEXP row <;>
                    simp [synonymDispatchTable, List.lookup, hp, Except.map, Except_ok_bind,
                      Except_error_bind]
                · by_cases h8 : ch = '.'
                  · subst h8
                    cases hp : parse_row IFFSynonymReader_COUNTRY_REGEXP row <;>
                      simp [synonymDispatchTable, List.lookup, hp, Except.map, Except_ok_bind,
                        Except_error_bind]
                  · have hlk : List.lookup ch synonymDispatchTable = none := by
                      simp [synonymDispatchTable, List.lookup,
                        beq_eq_false_iff_ne.mpr h1, beq_eq_false_iff_ne.mpr h2,
                        beq_eq_false_iff_ne.mpr h3, beq_eq_false_iff_ne.mpr h4,
                        beq_eq_false_iff_ne.mpr h5, beq_eq_false_iff_ne.mpr h6,
                        beq_eq_false_iff_ne.mpr h7, beq_eq_false_iff_ne.mpr h8]
                    simp only [if_neg h1, if_neg h2, if_neg h3, if_neg h4, if_neg h5,
                      if_neg h6, if_neg h7, if_neg h8, hlk]
                    rfl

/-! ## C2 — head/tail grouped grammars at end-of-input -/

/-- A line that one round of the tail loop consumes successfully: it is
non-empty, its first character is one of the grammar's tail markers, and it
matches the tail pattern. -/
def tailParse (g : GroupGrammar) (t : String) : Option Rec :=
  match charAt t with
  | .error _ => none
  | .ok ch => if g.markers.contains ch then (parse_row g.tailRE t).toOption else none

/-- Unpacking a successful `tailParse`. -/
theorem tailParse_inv (g : GroupGrammar) (t : String) (tr : Rec)
    (h : tailParse g t = some tr) :
    ∃ ch, charAt t = .ok ch ∧ g.markers.contains ch = true ∧
      parse_row g.tailRE t = .ok tr := by
  cases hch : charAt t with
  | error e => simp [tailParse, hch] at h
  | ok ch =>
    simp only [tailParse, hch] at h
    by_cases hm : g.markers.contains ch = true
    · rw [if_pos hm] at h
      cases hp : parse_row g.tailRE t with
      | error e => simp [hp, Except.toOption] at h
      | ok r =>
        simp only [hp, Except.toOption] at h
        have hr : r = tr := Option.some.inj h
        subst hr
        exact ⟨ch, rfl, hm, rfl⟩
    · rw [if_neg hm] at h
      exact Option.noConfusion h

/-- One round of the tail loop: consume the buffered matching line, parse
and append it, and either return it (end of input at the probing `peek`) or
continue with the next line buffered. -/
theorem groupLoop_step (g : GroupGrammar) (change : Rec) (t : String) (ts : List String)
    (ch : Char) (r : Rec) (hch : charAt t = .ok ch) (hm : g.markers.contains ch = true)
    (hp : parse_row g.tailRE t = .ok r) :
    groupLoop g change t ⟨[t], ts⟩ =
      (match ts with
      | [] => .ok (appendToField change g.field (.vrec r), ⟨[], []⟩)
      | t2 :: ts2 => groupLoop g (appendToField change g.field (.vrec r)) t2 ⟨[t2], ts2⟩) := by
  rw [groupLoop]
  simp only [hch, hm, if_true]
  split
  next heq => simp [next_line] at heq
  next e h1 h2 => simp [next_line] at h2
  next row c1 heq =>
    simp only [next_line, List.getLast?] at heq
    obtain ⟨rfl, rfl⟩ : t = row ∧ (⟨[], ts⟩ : Cursor) = c1 := by
      cases heq; exact ⟨rfl, rfl⟩
    simp only [hp]
    cases ts <;> rfl

/-- Running the tail loop over exactly the tail lines `t :: ts` followed by
physical end-of-input appends every parsed tail and returns the record when
a probing `peek` raises `StopIteration`. -/
theorem groupLoop_run (g : GroupGrammar) (ts : List String) :
    ∀ (t : String) (tr : Rec) (trs : List Rec) (change : Rec),
    tailParse g t = some tr → ts.mapM (tailParse g) = some trs →
    groupLoop g change t ⟨[t], ts⟩ =
      .ok ((tr :: trs).foldl (fun c r => appendToField c g.field (.vrec r)) change,
           ⟨[], []⟩) := by
  induction ts with
  | nil =>
    intro t tr trs change ht hts
    cases hts
    obtain ⟨ch, hch, hm, hp⟩ := tailParse_inv g t tr ht
    rw [groupLoop_step g change t [] ch tr hch hm hp]
    rfl
  | cons t2 ts2 ih =>
    intro t tr trs change ht hts
    rw [List.mapM_cons] at hts
    cases ht2 : tailParse g t2 with
    | none => rw [ht2] at hts; cases hts
    | some tr2 =>
      rw [ht2] at hts
      cases hts2 : ts2.mapM (tailParse g) with
      | none => rw [hts2] at hts; cases hts
      | some trs2 =>
        rw [hts2] at hts
        cases hts
        obtain ⟨ch, hch, hm, hp⟩ := tailParse_inv g t tr ht
        rw [groupLoop_step g change t (t2 :: ts2) ch tr hch hm hp]
        show groupLoop g (appendToField change g.field (.vrec tr)) t2 ⟨[t2], ts2⟩ = _
        rw [ih t2 tr2 trs2 _ ht2 hts2]
        simp

/-- C2 (amended): for every head/tail grouped grammar, run on an input that
is exactly a parsing head line followed by `ts` matching tail lines and
then physical end-of-input.  If at least one tail line was read, the
end-of-input hit by the probing `peek` inside the `try` is caught and the
head record with all parsed tails appended is returned.  But when the head
line is the last line of the input (`ts = []`), the *initial* probing
`peek` sits outside the `try`, its `StopIteration` propagates, and the
parsed head record is lost instead of returned — this is the one case
where the original claim fails. -/
theorem C2_grouped_eoi_amended (g : GroupGrammar) (hl : String) (hr : Rec)
    (ts : List String) (trs : List Rec)
    (hhead : parse_row g.headRE hl = .ok hr)
    (htails : ts.mapM (tailParse g) = some trs) :
    groupedNext g ⟨[], hl :: ts⟩ =
      if ts.isEmpty then .error .stopIteration
      else .ok (setK hr g.field (.vlist (trs.map .vrec)), ⟨[], []⟩) := by
  have h0 : next_line ⟨[], hl :: ts⟩ = .ok (hl, ⟨[], ts⟩) := rfl
  cases ts with
  | nil =>
    cases htails
    simp only [groupedNext, h0, Except_ok_bind, hhead, List.isEmpty_nil, if_true]
    rfl
  | cons t ts2 =>
    rw [List.mapM_cons] at htails
    cases ht : tailParse g t with
    | none => rw [ht] at htails; cases htails
    | some tr =>
      rw [ht] at htails
      cases hts2 : ts2.mapM (tailParse g) with
      | none => rw [hts2] at htails; cases htails
      | some trs2 =>
        rw [hts2] at htails
        cases htails
        simp only [groupedNext, h0, Except_ok_bind, hhead, List.isEmpty_cons,
          if_false, Bool.false_eq_true,
          show peek (⟨[], t :: ts2⟩ : Cursor) = .ok (t, ⟨[t], ts2⟩) from rfl]
        rw [groupLoop_run g ts2 t tr trs2 (setK hr g.field (.vlist [])) ht hts2]
        rw [show (tr :: trs2).foldl (fun c r => appendToField c g.field (.vrec r))
              (setK hr g.field (.vlist [])) =
            setK hr g.field (.vlist (((tr :: trs2).map .vrec))) from by
          rw [show ((tr :: trs2).map Val.vrec) = [] ++ ((tr :: trs2).map Val.vrec) from rfl]
          rw [← foldl_appendToField ((tr :: trs2).map Val.vrec) hr g.field []]
          rw [List.foldl_map]]

/-- C2 (counterexample): a changes-grammar head line that is the last line
of the input parses successfully, yet the produce-next-record call raises
`StopIteration` (the initial probing `peek` is outside the `try`) instead
of returning the head record with an empty tail list. -/
theorem C2_head_last_line_cex :
    parse_row IFFChangesReader_REGEXP "#ABCDEFG" =
      .ok [("station_short_name", .vs "ABCDEFG")] ∧
    IFFChangesReader_next ⟨[], ["#ABCDEFG"]⟩ = .error .stopIteration := ⟨rfl, rfl⟩

/-- C2 witness: the changes grammar with one tail line cut off by
end-of-input returns the head with that one tail appended. -/
theorem C2_grouped_eoi_amended_witness :
    parse_row changesGrammar.headRE "#ABCDEFG" =
      .ok [("station_short_name", .vs "ABCDEFG")] ∧
    ["-00000001,00000002,01"].mapM (tailParse changesGrammar) =
      some [[("from_service_identification", .vi 1),
             ("to_service_identification", .vi 2),
             ("possibility_to_change_trains", .vi 1)]] ∧
    groupedNext changesGrammar ⟨[], ["#ABCDEFG", "-00000001,00000002,01"]⟩ =
      if (["-00000001,00000002,01"] : List String).isEmpty then .error .stopIteration
      else .ok (setK [("station_short_name", .vs "ABCDEFG")] changesGrammar.field
        (.vlist ([[("from_service_identification", (.vi 1 : Val)),
                   ("to_service_identification", .vi 2),
                   ("possibility_to_change_trains", .vi 1)]].map .vrec)), ⟨[], []⟩) :=
  ⟨rfl, rfl, C2_grouped_eoi_amended changesGrammar "#ABCDEFG"
    [("station_short_name", .vs "ABCDEFG")] ["-00000001,00000002,01"]
    [[("from_service_identification", .vi 1), ("to_service_identification", .vi 2),
      ("possibility_to_change_trains", .vi 1)]] rfl rfl⟩

/-! ## C1 — the route loop never terminates on a truncated route -/

/-- A sub-group scan whose peeked line does not carry the group's marker
returns immediately. -/
theorem scanPlain_skip (tailRE : RE) (marker : Char) (fld : String) (service : Rec)
    (nl : String) (c : Cursor) (ch : Char)
    (hch : charAt nl = .ok ch) (hne : ch ≠ marker) :
    scanPlain tailRE marker fld service nl c = .ok (service, nl, c) := by
  rw [scanPlain]
  simp [hch, hne]

/-- Once the `except StopIteration` handler has run with the in-progress
stop already in the route (exactly the state reached after the first
handler round on a truncated route), every further loop round re-raises
`StopIteration` from `next_line`, re-runs the handler without appending,
and loops — for every amount of fuel the loop is still running. -/
theorem routeLoop_stuck (f : Nat) (svc : Rec) (i : Nat) (st : Rec) (nl : String)
    (hmem : routeMem svc st = true) :
    routeLoop f svc i (some st) nl ⟨[], []⟩ = .error .fuelOut := by
  induction f generalizing svc with
  | zero => rfl
  | succ f ih =>
    rw [routeLoop]
    simp only [show next_line (⟨[], []⟩ : Cursor) = .error .stopIteration from rfl,
      routeEofAppend, hmem, if_true]
    exact ih svc hmem

/-- C1: on a timetable input whose route is truncated before any
final-marker (`<`) stop — here a service head followed by a single start
stop and then physical end-of-input — the produce-next-record call never
terminates: the `except StopIteration` handler appends the partial stop
but neither breaks nor returns, so the `while not last_stop_done` loop
catches the same `StopIteration` forever.  (The claim says the call
terminates and returns the service with the partial stop; the code's own
comment shows that recovery is the intent, so the non-termination is a
bug in the code.) -/
theorem C1_truncated_route_diverges (fuel : Nat) :
    IFFTimeTablesReader_next fuel ⟨[], ["#00000001", ">AAAAAAA,1200"]⟩ =
      .error .fuelOut := by
  cases fuel with
  | zero =>
    simp only [IFFTimeTablesReader_next,
      show next_line ⟨[], ["#00000001", ">AAAAAAA,1200"]⟩ =
        .ok ("#00000001", ⟨[], [">AAAAAAA,1200"]⟩) from rfl,
      show parse_row IFFTimeTablesReader_REGEXP "#00000001" =
        .ok [("service_identification", .vi 1)] from rfl,
      show peek ⟨[], [">AAAAAAA,1200"]⟩ =
        .ok (">AAAAAAA,1200", ⟨[">AAAAAAA,1200"], []⟩) from rfl,
      Except_ok_bind]
    rw [scanPlain_skip _ _ _ _ ">AAAAAAA,1200" _ '>' rfl (by decide)]
    simp only [Except_ok_bind]
    rw [scanPlain_skip _ _ _ _ ">AAAAAAA,1200" _ '>' rfl (by decide)]
    simp only [Except_ok_bind]
    rw [scanPlain_skip _ _ _ _ ">AAAAAAA,1200" _ '>' rfl (by decide)]
    simp only [Except_ok_bind]
    rw [scanPlain_skip _ _ _ _ ">AAAAAAA,1200" _ '>' rfl (by decide)]
    simp only [Except_ok_bind]
    rfl
  | succ f =>
    simp only [IFFTimeTablesReader_next,
      show next_line ⟨[], ["#00000001", ">AAAAAAA,1200"]⟩ =
        .ok ("#00000001", ⟨[], [">AAAAAAA,1200"]⟩) from rfl,
      show parse_row IFFTimeTablesReader_REGEXP "#00000001" =
        .ok [("service_identification", .vi 1)] from rfl,
      show peek ⟨[], [">AAAAAAA,1200"]⟩ =
        .ok (">AAAAAAA,1200", ⟨[">AAAAAAA,1200"], []⟩) from rfl,
      Except_ok_bind]
    rw [scanPlain_skip _ _ _ _ ">AAAAAAA,1200" _ '>' rfl (by decide)]
    simp only [Except_ok_bind]
    rw [scanPlain_skip _ _ _ _ ">AAAAAAA,1200" _ '>' rfl (by decide)]
    simp only [Except_ok_bind]
    rw [scanPlain_skip _ _ _ _ ">AAAAAAA,1200" _ '>' rfl (by decide)]
    simp only [Except_ok_bind]
    rw [scanPlain_skip _ _ _ _ ">AAAAAAA,1200" _ '>' rfl (by decide)]
    simp only [Except_ok_bind]
    show routeLoop f
      [("service_identification", .vi 1), ("numbers", .vlist []),
       ("validities", .vlist []), ("transport_modes", .vlist []),
       ("attributes", .vlist []),
       ("route", .vlist [.vrec [("station_short_name", .vs "AAAAAAA"),
          ("departure_time", .vt 720), ("platform", .vlist []),
          ("stop_index", .vi 1)]])]
      1
      (some [("station_short_name", .vs "AAAAAAA"), ("departure_time", .vt 720),
             ("platform", .vlist []), ("stop_index", .vi 1)])
      ">AAAAAAA,1200" ⟨[], []⟩ = .error .fuelOut
    exact routeLoop_stuck f _ 1 _ _ rfl

/-! ## C4 — stop numbering along a route -/

/-- The passing loop exits as soon as the peeked line is not a `;` line. -/
theorem passingLoop_exit (service stop : Rec) (nl : String) (c : Cursor) (ch : Char)
    (hch : charAt nl = .ok ch) (hne : ch ≠ ';') :
    passingLoop service stop nl c = .normal service stop nl c := by
  rw [passingLoop]
  simp [hch, hne]

/-- One round of the passing loop on a buffered `;` line: parse the passing
stop (with no `stop_index` and no `platform` field), and either hit
end-of-input at the probing `peek` — surfacing the not-yet-appended stop to
the handler — or append it and continue. -/
theorem passingLoop_step (service stop : Rec) (t : String) (ts : List String) (p : Rec)
    (hch : charAt t = .ok ';')
    (hp : parse_row IFFTimeTablesReader_PASSING_REGEXP t = .ok p) :
    passingLoop service stop t ⟨[t], ts⟩ =
      (match ts with
       | [] => .eof service p t ⟨[], []⟩
       | t2 :: ts2 => passingLoop (appendRoute service p) p t2 ⟨[t2], ts2⟩) := by
  rw [passingLoop]
  simp only [hch, if_true]
  split
  next heq => simp [next_line] at heq
  next e h1 h2 => simp [next_line] at h2
  next row c1 heq =>
    simp only [next_line, List.getLast?] at heq
    obtain ⟨rfl, rfl⟩ : t = row ∧ (⟨[], ts⟩ : Cursor) = c1 := by
      cases heq; exact ⟨rfl, rfl⟩
    simp only [hp]
    cases ts <;> rfl

/-- A route line holding a non-final, non-passing stop: `>` start, `+`
interval or `.` continuation, with the line matching the corresponding
pattern. -/
def stopLineParse (l : String) : Option Rec :=
  match charAt l with
  | .error _ => none
  | .ok ch =>
    if ch = '>' then (parse_row IFFTimeTablesReader_START_REGEXP l).toOption
    else if ch = '+' then (parse_row IFFTimeTablesReader_INTERVAL_REGEXP l).toOption
    else if ch = '.' then (parse_row IFFTimeTablesReader_CONTINUATION_REGEXP l).toOption
    else none

/-- Unpacking a successful `stopLineParse`. -/
theorem stopLineParse_inv (l : String) (r : Rec) (h : stopLineParse l = some r) :
    ∃ ch, charAt l = .ok ch ∧ ch ≠ '?' ∧ ch ≠ ';' ∧ ch ≠ '<' ∧
      ((ch = '>' ∧ parse_row IFFTimeTablesReader_START_REGEXP l = .ok r) ∨
       (ch = '+' ∧ parse_row IFFTimeTablesReader_INTERVAL_REGEXP l = .ok r) ∨
       (ch = '.' ∧ parse_row IFFTimeTablesReader_CONTINUATION_REGEXP l = .ok r)) := by
  cases hch : charAt l with
  | error e => simp [stopLineParse, hch] at h
  | ok ch =>
    simp only [stopLineParse, hch] at h
    by_cases h1 : ch = '>'
    · subst h1
      rw [if_pos rfl] at h
      cases hp : parse_row IFFTimeTablesReader_START_REGEXP l with
      | error e => simp [hp, Except.toOption] at h
      | ok r0 =>
        simp only [hp, Except.toOption] at h
        have hr : r0 = r := Option.some.inj h
        subst hr
        exact ⟨'>', rfl, by decide, by decide, by decide, Or.inl ⟨rfl, rfl⟩⟩
    · rw [if_neg h1] at h
      by_cases h2 : ch = '+'
      · subst h2
        rw [if_pos rfl] at h
        cases hp : parse_row IFFTimeTablesReader_INTERVAL_REGEXP l with
        | error e => simp [hp, Except.toOption] at h
        | ok r0 =>
          simp only [hp, Except.toOption] at h
          have hr : r0 = r := Option.some.inj h
          subst hr
          exact ⟨'+', rfl, by decide, by decide, by decide, Or.inr (Or.inl ⟨rfl, rfl⟩)⟩
      · rw [if_neg h2] at h
        by_cases h3 : ch = '.'
        · subst h3
          rw [if_pos rfl] at h
          cases hp : parse_row IFFTimeTablesReader_CONTINUATION_REGEXP l with
          | error e => simp [hp, Except.toOption] at h
          | ok r0 =>
            simp only [hp, Except.toOption] at h
            have hr : r0 = r := Option.some.inj h
            subst hr
            exact ⟨'.', rfl, by decide, by decide, by decide, Or.inr (Or.inr ⟨rfl, rfl⟩)⟩
        · rw [if_neg h3] at h
          exact Option.noConfusion h

/-- One full round of the route loop on a buffered non-final, non-passing
stop line, when the following line is neither a platform (`?`) nor a
passing (`;`) line: the stop is parsed, stamped with the next 1-based
`stop_index`, appended to the route, and the loop continues on the next
line. -/
theorem routeLoop_step_normal (f : Nat) (svc : Rec) (idx : Nat) (so : Option Rec)
    (x y : String) (rest : List String) (r0 : Rec) (ch2 : Char)
    (hx : stopLineParse x = some r0)
    (hy : charAt y = .ok ch2) (hy1 : ch2 ≠ '?') (hy2 : ch2 ≠ ';') :
    routeLoop (f + 1) svc idx so x ⟨[x], y :: rest⟩ =
      routeLoop f (appendRoute svc (stampStop r0 (idx + 1))) (idx + 1)
        (some (stampStop r0 (idx + 1))) y ⟨[y], rest⟩ := by
  obtain ⟨ch, hch, -, -, -, hdisp⟩ := stopLineParse_inv x r0 hx
  have hnl : next_line ⟨[x], y :: rest⟩ = .ok (x, ⟨[], y :: rest⟩) := rfl
  have hpk : peek (⟨[], y :: rest⟩ : Cursor) = .ok (y, ⟨[y], rest⟩) := rfl
  have hpe := passingLoop_exit (appendRoute svc (stampStop r0 (idx + 1)))
    (stampStop r0 (idx + 1)) y ⟨[y], rest⟩ ch2 hy hy2
  rcases hdisp with ⟨rfl, hp⟩ | ⟨rfl, hp⟩ | ⟨rfl, hp⟩ <;>
    simp [routeLoop, hnl, hch, hp, hpk, hy, hy1, hpe, Except.map]

/-- One full round of the route loop on a buffered final-marker (`<`) stop
line, when the following line is neither `?` nor `;`: the final stop is
parsed, stamped, appended, and the loop returns the service with the
following line still buffered. -/
theorem routeLoop_step_final (f : Nat) (svc : Rec) (idx : Nat) (so : Option Rec)
    (x y : String) (rest : List String) (fr : Rec) (ch2 : Char)
    (hx : charAt x = .ok '<')
    (hp : parse_row IFFTimeTablesReader_FINAL_REGEXP x = .ok fr)
    (hy : charAt y = .ok ch2) (hy1 : ch2 ≠ '?') (hy2 : ch2 ≠ ';') :
    routeLoop (f + 1) svc idx so x ⟨[x], y :: rest⟩ =
      .ok (appendRoute svc (stampStop fr (idx + 1)), ⟨[y], rest⟩) := by
  have hnl : next_line ⟨[x], y :: rest⟩ = .ok (x, ⟨[], y :: rest⟩) := rfl
  have hpk : peek (⟨[], y :: rest⟩ : Cursor) = .ok (y, ⟨[y], rest⟩) := rfl
  have hpe := passingLoop_exit (appendRoute svc (stampStop fr (idx + 1)))
    (stampStop fr (idx + 1)) y ⟨[y], rest⟩ ch2 hy hy2
  simp [routeLoop, hnl, hx, hp, hpk, hy, hy1, hpe, Except.map]

/-- The line the route loop sees first: the first non-final stop line, or
the final line when there are none. -/
def firstLine (ls : List String) (finalL : String) : String :=
  match ls with
  | [] => finalL
  | x :: _ => x

/-- The unread lines that follow `firstLine`. -/
def restLines (ls : List String) (finalL trailer : String) : List String :=
  match ls with
  | [] => [trailer]
  | _ :: xs => xs ++ [finalL, trailer]

/-- Running the route loop over non-passing stop lines `ls`, a final line
and a trailing line (first char neither `?` nor `;`): every stop is
appended stamped with consecutive 1-based `stop_index` values starting
right after `idx`, and the service is returned with the trailer buffered. -/
theorem routeLoop_noPassing (finalL trailer : String) (fr : Rec) (tch : Char)
    (hfch : charAt finalL = .ok '<')
    (hfp : parse_row IFFTimeTablesReader_FINAL_REGEXP finalL = .ok fr)
    (htch : charAt trailer = .ok tch) (ht1 : tch ≠ '?') (ht2 : tch ≠ ';') :
    ∀ (ls : List String) (rs : List Rec) (svc : Rec) (idx : Nat) (so : Option Rec)
      (f : Nat),
    ls.mapM stopLineParse = some rs → ls.length + 1 ≤ f →
    routeLoop f svc idx so (firstLine ls finalL)
      ⟨[firstLine ls finalL], restLines ls finalL trailer⟩ =
      .ok ((List.zipWith stampStop (rs ++ [fr])
              (List.range' (idx + 1) (rs.length + 1))).foldl appendRoute svc,
           ⟨[trailer], []⟩) := by
  intro ls
  induction ls with
  | nil =>
    intro rs svc idx so f hrs hf
    cases hrs
    match f, hf with
    | f + 1, _ =>
      rw [show firstLine [] finalL = finalL from rfl,
        show restLines [] finalL trailer = [trailer] from rfl]
      rw [routeLoop_step_final f svc idx so finalL trailer [] fr tch hfch hfp htch ht1 ht2]
      rfl
  | cons x ls2 ih =>
    intro rs svc idx so f hrs hf
    rw [List.mapM_cons] at hrs
    cases hx : stopLineParse x with
    | none => rw [hx] at hrs; cases hrs
    | some r0 =>
      rw [hx] at hrs
      cases hrs2 : ls2.mapM stopLineParse with
      | none => rw [hrs2] at hrs; cases hrs
      | some rs2 =>
        rw [hrs2] at hrs
        cases hrs
        match f, hf with
        | f + 1, hf =>
          have hych : ∃ ch2, charAt (firstLine ls2 finalL) = .ok ch2 ∧
              ch2 ≠ '?' ∧ ch2 ≠ ';' := by
            cases ls2 with
            | nil => exact ⟨'<', hfch, by decide, by decide⟩
            | cons y ys =>
              rw [List.mapM_cons] at hrs2
              cases hy : stopLineParse y with
              | none => rw [hy] at hrs2; cases hrs2
              | some ry =>
                obtain ⟨ch2, hch2, hq, hs, -, -⟩ := stopLineParse_inv y ry hy
                exact ⟨ch2, hch2, hq, hs⟩
          obtain ⟨ch2, hch2, hq2, hs2⟩ := hych
          have hrest : restLines (x :: ls2) finalL trailer =
              firstLine ls2 finalL :: restLines ls2 finalL trailer := by
            cases ls2 <;> rfl
          rw [show firstLine (x :: ls2) finalL = x from rfl, hrest]
          rw [routeLoop_step_normal f svc idx so x (firstLine ls2 finalL)
            (restLines ls2 finalL trailer) r0 ch2 hx hch2 hq2 hs2]
          rw [ih rs2 (appendRoute svc (stampStop r0 (idx + 1))) (idx + 1)
            (some (stampStop r0 (idx + 1))) f hrs2 (by simpa using hf)]
          rw [show List.range' (idx + 1) ((r0 :: rs2).length + 1) =
              (idx + 1) :: List.range' (idx + 1 + 1) (rs2.length + 1) from by
            simp [List.range'_succ]]
          rfl

/-- The position stamp of a stamped stop is readable back. -/
theorem getK_stampStop (r : Rec) (i : Nat) :
    getK (stampStop r i) "stop_index" = some (.vi (i : Int)) := by
  simp [stampStop, getK_setK]

/-- One round of the route loop on a buffered non-final stop line whose
following line is a passing (`;`) line: the stop is stamped and appended
and control passes to the passing loop, whose exit decides how the round
ends. -/
theorem routeLoop_step_then_passing (f : Nat) (svc : Rec) (idx : Nat) (so : Option Rec)
    (x y : String) (rest : List String) (r0 : Rec)
    (hx : stopLineParse x = some r0) (hy : charAt y = .ok ';') :
    routeLoop (f + 1) svc idx so x ⟨[x], y :: rest⟩ =
      (match passingLoop (appendRoute svc (stampStop r0 (idx + 1)))
          (stampStop r0 (idx + 1)) y ⟨[y], rest⟩ with
       | .err e => .error e
       | .eof s st nlE cE => routeLoop f (routeEofAppend s st) (idx + 1) (some st) nlE cE
       | .normal s st nl3 c3 => routeLoop f s (idx + 1) (some st) nl3 c3) := by
  obtain ⟨ch, hch, -, -, -, hdisp⟩ := stopLineParse_inv x r0 hx
  have hnl : next_line ⟨[x], y :: rest⟩ = .ok (x, ⟨[], y :: rest⟩) := rfl
  have hpk : peek (⟨[], y :: rest⟩ : Cursor) = .ok (y, ⟨[y], rest⟩) := rfl
  rcases hdisp with ⟨rfl, hp⟩ | ⟨rfl, hp⟩ | ⟨rfl, hp⟩ <;>
    simp [routeLoop, hnl, hch, hp, hpk, hy, Except.map]

/-- C4 (counterexample): a route containing a passing stop.  The produced
route has three stops, but the passing stop (2nd in route order) carries
*no* `stop_index` field at all, and the final stop (3rd in route order)
carries `stop_index` 2, not 3: the sequential numbering counts only
non-passing stops. -/
theorem C4_passing_stop_cex :
    IFFTimeTablesReader_next 5
      ⟨[], ["#00000001", ">AAAAAAA,1200", ";BBBBBBB", "<CCCCCCC,1300", "#00000002"]⟩ =
      .ok ([("service_identification", .vi 1), ("numbers", .vlist []),
            ("validities", .vlist []), ("transport_modes", .vlist []),
            ("attributes", .vlist []),
            ("route", .vlist
              [.vrec [("station_short_name", .vs "AAAAAAA"), ("departure_time", .vt 720),
                      ("platform", .vlist []), ("stop_index", .vi 1)],
               .vrec [("station_short_name", .vs "BBBBBBB")],
               .vrec [("station_short_name", .vs "CCCCCCC"), ("arrival_time", .vt 780),
                      ("platform", .vlist []), ("stop_index", .vi 2)]])],
           ⟨["#00000002"], []⟩) ∧
    getK [("station_short_name", (.vs "BBBBBBB" : Val))] "stop_index" = none := by
  constructor
  · simp only [IFFTimeTablesReader_next,
      show next_line ⟨[], ["#00000001", ">AAAAAAA,1200", ";BBBBBBB", "<CCCCCCC,1300",
        "#00000002"]⟩ = .ok ("#00000001", ⟨[], [">AAAAAAA,1200", ";BBBBBBB",
        "<CCCCCCC,1300", "#00000002"]⟩) from rfl,
      show parse_row IFFTimeTablesReader_REGEXP "#00000001" =
        .ok [("service_identification", .vi 1)] from rfl,
      show peek ⟨[], [">AAAAAAA,1200", ";BBBBBBB", "<CCCCCCC,1300", "#00000002"]⟩ =
        .ok (">AAAAAAA,1200", ⟨[">AAAAAAA,1200"],
          [";BBBBBBB", "<CCCCCCC,1300", "#00000002"]⟩) from rfl,
      Except_ok_bind]
    rw [scanPlain_skip _ _ _ _ ">AAAAAAA,1200" _ '>' rfl (by decide)]
    simp only [Except_ok_bind]
    rw [scanPlain_skip _ _ _ _ ">AAAAAAA,1200" _ '>' rfl (by decide)]
    simp only [Except_ok_bind]
    rw [scanPlain_skip _ _ _ _ ">AAAAAAA,1200" _ '>' rfl (by decide)]
    simp only [Except_ok_bind]
    rw [scanPlain_skip _ _ _ _ ">AAAAAAA,1200" _ '>' rfl (by decide)]
    simp only [Except_ok_bind]
    rw [show (5 : Nat) = 4 + 1 from rfl]
    rw [routeLoop_step_then_passing 4 _ 0 none ">AAAAAAA,1200" ";BBBBBBB"
      ["<CCCCCCC,1300", "#00000002"]
      [("station_short_name", .vs "AAAAAAA"), ("departure_time", .vt 720)] rfl rfl]
    rw [passingLoop_step _ _ ";BBBBBBB" ["<CCCCCCC,1300", "#00000002"]
      [("station_short_name", .vs "BBBBBBB")] rfl rfl]
    show (match passingLoop
        [("service_identification", .vi 1), ("numbers", .vlist []),
         ("validities", .vlist []), ("transport_modes", .vlist []),
         ("attributes", .vlist []),
         ("route", .vlist
           [.vrec [("station_short_name", .vs "AAAAAAA"), ("departure_time", .vt 720),
                   ("platform", .vlist []), ("stop_index", .vi 1)],
            .vrec [("station_short_name", .vs "BBBBBBB")]])]
        [("station_short_name", .vs "BBBBBBB")] "<CCCCCCC,1300"
        ⟨["<CCCCCCC,1300"], ["#00000002"]⟩ with
      | .err e => Except.error e
      | .eof s st nlE cE => routeLoop 4 (routeEofAppend s st) 1 (some st) nlE cE
      | .normal s st nl3 c3 => routeLoop 4 s 1 (some st) nl3 c3) = _
    rw [passingLoop_exit _ _ "<CCCCCCC,1300" _ '<' rfl (by decide)]
    show routeLoop 4
        [("service_identification", .vi 1), ("numbers", .vlist []),
         ("validities", .vlist []), ("transport_modes", .vlist []),
         ("attributes", .vlist []),
         ("route", .vlist
           [.vrec [("station_short_name", .vs "AAAAAAA"), ("departure_time", .vt 720),
                   ("platform", .vlist []), ("stop_index", .vi 1)],
            .vrec [("station_short_name", .vs "BBBBBBB")]])]
        1 (some [("station_short_name", .vs "BBBBBBB")]) "<CCCCCCC,1300"
        ⟨["<CCCCCCC,1300"], ["#00000002"]⟩ = _
    rw [show (4 : Nat) = 3 + 1 from rfl]
    rw [routeLoop_step_final 3 _ 1 _ "<CCCCCCC,1300" "#00000002" []
      [("station_short_name", .vs "CCCCCCC"), ("arrival_time", .vt 780)] '#'
      rfl rfl rfl (by decide) (by decide)]
    rfl
  · rfl

/-- C4 (amended): in a route with no passing stops — a start line, interval
or continuation lines, and a final line, each matching its pattern, with
empty optional sub-group sections and a trailing line — the produced route
consists of the parsed stops in order, each stamped with a sequential
1-based `stop_index` equal to its position in route order (the spec's
start + interval + final example receives positions 1, 2, 3).  Passing
stops are excluded: as the counterexample shows, they carry no position
field, and the numbering counts only non-passing stops. -/
theorem C4_route_positions_amended (hl startL finalL trailer : String)
    (hr sr fr : Rec) (mids : List String) (midRecs : List Rec) (tch : Char)
    (fuel : Nat)
    (hhead : parse_row IFFTimeTablesReader_REGEXP hl = .ok hr)
    (hstart : charAt startL = .ok '>')
    (hstartp : stopLineParse startL = some sr)
    (hmids : mids.mapM stopLineParse = some midRecs)
    (hfch : charAt finalL = .ok '<')
    (hfp : parse_row IFFTimeTablesReader_FINAL_REGEXP finalL = .ok fr)
    (htch : charAt trailer = .ok tch) (ht1 : tch ≠ '?') (ht2 : tch ≠ ';')
    (hfuel : mids.length + 2 ≤ fuel) :
    IFFTimeTablesReader_next fuel ⟨[], hl :: startL :: (mids ++ [finalL, trailer])⟩ =
      .ok ((List.zipWith stampStop ((sr :: midRecs) ++ [fr])
              (List.range' 1 (midRecs.length + 2))).foldl appendRoute
             (setK (setK (setK (setK (setK hr "numbers" (.vlist []))
               "validities" (.vlist [])) "transport_modes" (.vlist []))
               "attributes" (.vlist [])) "route" (.vlist [])),
           ⟨[trailer], []⟩) ∧
    (∀ k (hk : k < (List.zipWith stampStop ((sr :: midRecs) ++ [fr])
        (List.range' 1 (midRecs.length + 2))).length),
      getK ((List.zipWith stampStop ((sr :: midRecs) ++ [fr])
        (List.range' 1 (midRecs.length + 2))).get ⟨k, hk⟩) "stop_index" =
        some (.vi ((k : Int) + 1))) := by
  constructor
  · simp only [IFFTimeTablesReader_next,
      show next_line ⟨[], hl :: startL :: (mids ++ [finalL, trailer])⟩ =
        .ok (hl, ⟨[], startL :: (mids ++ [finalL, trailer])⟩) from rfl,
      hhead,
      show peek (⟨[], startL :: (mids ++ [finalL, trailer])⟩ : Cursor) =
        .ok (startL, ⟨[startL], mids ++ [finalL, trailer]⟩) from rfl,
      Except_ok_bind]
    rw [scanPlain_skip _ _ _ _ startL _ '>' hstart (by decide)]
    simp only [Except_ok_bind]
    rw [scanPlain_skip _ _ _ _ startL _ '>' hstart (by decide)]
    simp only [Except_ok_bind]
    rw [scanPlain_skip _ _ _ _ startL _ '>' hstart (by decide)]
    simp only [Except_ok_bind]
    rw [scanPlain_skip _ _ _ _ startL _ '>' hstart (by decide)]
    simp only [Except_ok_bind]
    have hls : (startL :: mids).mapM stopLineParse = some (sr :: midRecs) := by
      rw [List.mapM_cons, hstartp, hmids]
      rfl
    have := routeLoop_noPassing finalL trailer fr tch hfch hfp htch ht1 ht2
      (startL :: mids) (sr :: midRecs)
      (setK (setK (setK (setK (setK hr "numbers" (.vlist []))
        "validities" (.vlist [])) "transport_modes" (.vlist []))
        "attributes" (.vlist [])) "route" (.vlist []))
      0 none fuel hls (by simpa using hfuel)
    rw [show firstLine (startL :: mids) finalL = startL from rfl,
      show restLines (startL :: mids) finalL trailer = mids ++ [finalL, trailer] from rfl]
      at this
    rw [this]
    rfl
  · intro k hk
    rw [List.get_eq_getElem, List.getElem_zipWith, List.getElem_range', getK_stampStop]
    congr 2
    push_cast
    ring

/-- C4 witness: the spec's own example — start + one interval + final —
yields three stops with positions 1, 2, 3. -/
theorem C4_route_positions_amended_witness :
    (["+BBBBBBB,1210,1215"] : List String).mapM stopLineParse =
      some [[("station_short_name", .vs "BBBBBBB"), ("arrival_time", .vt 730),
             ("departure_time", .vt 735)]] ∧
    IFFTimeTablesReader_next 3
      ⟨[], ["#00000001", ">AAAAAAA,1200", "+BBBBBBB,1210,1215", "<CCCCCCC,1300",
            "#00000002"]⟩ =
      .ok ([("service_identification", .vi 1), ("numbers", .vlist []),
            ("validities", .vlist []), ("transport_modes", .vlist []),
            ("attributes", .vlist []),
            ("route", .vlist
              [.vrec [("station_short_name", .vs "AAAAAAA"), ("departure_time", .vt 720),
                      ("platform", .vlist []), ("stop_index", .vi 1)],
               .vrec [("station_short_name", .vs "BBBBBBB"), ("arrival_time", .vt 730),
                      ("departure_time", .vt 735), ("platform", .vlist []),
                      ("stop_index", .vi 2)],
               .vrec [("station_short_name", .vs "CCCCCCC"), ("arrival_time", .vt 780),
                      ("platform", .vlist []), ("stop_index", .vi 3)]])],
           ⟨["#00000002"], []⟩) := by
  refine ⟨rfl, ?_⟩
  have h := (C4_route_positions_amended "#00000001" ">AAAAAAA,1200" "<CCCCCCC,1300"
    "#00000002" [("service_identification", .vi 1)]
    [("station_short_name", .vs "AAAAAAA"), ("departure_time", .vt 720)]
    [("station_short_name", .vs "CCCCCCC"), ("arrival_time", .vt 780)]
    ["+BBBBBBB,1210,1215"]
    [[("station_short_name", .vs "BBBBBBB"), ("arrival_time", .vt 730),
      ("departure_time", .vt 735)]] '#' 3
    rfl rfl rfl rfl rfl rfl rfl (by decide) (by decide) (by decide)).1
  exact h.trans rfl

/-- C1 witness: the divergence at one concrete fuel value. -/
theorem C1_truncated_route_diverges_witness :
    IFFTimeTablesReader_next 7 ⟨[], ["#00000001", ">AAAAAAA,1200"]⟩ =
      .error .fuelOut :=
  C1_truncated_route_diverges 7

/-- C10 witness: the dispatch equivalence at a concrete, well-formed
transport-attribute synonym line. -/
theorem C10_synonym_dispatch_amended_witness :
    IFFSynonymReader_next ⟨[], ["*ATTR,NL  ,                    descriptio"]⟩ =
      (synonymSpecDispatch "*ATTR,NL  ,                    descriptio").map
        (fun r => (r, (⟨[], []⟩ : Cursor))) :=
  C10_synonym_dispatch_amended "*ATTR,NL  ,                    descriptio" []
